import Mathlib

/-! ULN2003 stepper sequencer: a shallow embedding of `ULN2003.h` / `ULN2003.cpp`.

The class `ULN2003` is embedded as a record of its data members plus the
state of its two collaborators (the four digital output lines and the
`OneShot` pulse scheduler).  Member functions become functions on that
record.  Machine integers are `Nat` (unsigned) and `Int` (signed) with the
conversions of C written out: `toUInt32` is the conversion to `uint32_t`,
`toInt32` the conversion to `int32_t` (two's complement wrap-around).
A division by zero is a `Fault`; a busy-wait loop takes fuel.
-/

namespace ULN2003

/-! ## Types -/

/-- The enumeration `ULN2003::State`. -/
inductive State where
  | STOPPED
  | MOVING
  | PAUSED
  deriving DecidableEq, Repr

/-- The enumeration `ULN2003::Phase` (underlying values 0, 1, 2). -/
inductive Phase where
  | ONE
  | TWO
  | HALF
  deriving DecidableEq, Repr

/-- The enumeration `ULN2003::Dir`. -/
inductive Dir where
  | CW
  | CCW
  deriving DecidableEq, Repr

/-- What can go wrong when a member function is evaluated: a division by
zero (undefined behaviour in C++), or a busy-wait loop of the model that
has used up its fuel. -/
inductive Fault where
  | divisionByZero
  | outOfFuel
  deriving DecidableEq, Repr

/-- The calls the class makes on its collaborators, in the order made. -/
inductive Event where
  | digitalWrite (line : Nat) (level : Bool)
  | timerStart (us : Nat)
  | timerCancel
  | timerPause
  | timerResume
  deriving DecidableEq, Repr

/-- Levels of the four output lines `PINS[0..3]` (`true` = HIGH).  The four
pins are taken to be distinct, so a line is named by its index in `PINS`. -/
structure Lines where
  l0 : Bool
  l1 : Bool
  l2 : Bool
  l3 : Bool
  deriving DecidableEq, Repr

end ULN2003

/-- Modelled from the spec: the pulse scheduler `OneShot interrupter_`, a class
of the separate OneShot library.  It is a one-shot rearmable timer: `armed` holds
the interval of the pending shot, `paused` says whether it is frozen. -/
structure OneShot where
  armed : Option Nat
  paused : Bool
  deriving DecidableEq, Repr

/-- The data members of `ULN2003` (`ULN2003.h` lines 160-174) with the state of
the collaborators: `lines` are the levels last written to `PINS`, `trace` is
the sequence of calls made on the collaborators so far. -/
structure ULN2003 where
  resolution_ : Nat
  startSpeed_ : Nat
  currentStep_ : Int
  toStep_ : Int
  interval_ : Nat
  delayCorrection_ : Nat
  intervalAdj_ : Nat
  acceleration_ : Nat
  currentInterval_ : Nat
  decreaseStep_ : Nat
  isInfinite_ : Bool
  isBlocking_ : Bool
  state_ : ULN2003.State
  phase_ : ULN2003.Phase
  dir_ : ULN2003.Dir
  interrupter_ : OneShot
  lines : ULN2003.Lines
  trace : List ULN2003.Event
  deriving DecidableEq, Repr

namespace ULN2003

/-! ## Machine integers -/

/-- Conversion of an integer value to `uint32_t`: reduction modulo 2^32. -/
def toUInt32 (x : Int) : Nat := (x % 4294967296).toNat

/-- Conversion of an integer value to `int32_t`: two's complement wrap-around. -/
def toInt32 (x : Int) : Int := (x + 2147483648) % 4294967296 - 2147483648

/-- Every data member holds a value of its C++ type. -/
def InRange (s : ULN2003) : Prop :=
  s.resolution_ < 65536 ∧ s.startSpeed_ < 256 ∧
  (-2147483648 ≤ s.currentStep_ ∧ s.currentStep_ < 2147483648) ∧
  (-2147483648 ≤ s.toStep_ ∧ s.toStep_ < 2147483648) ∧
  s.interval_ < 4294967296 ∧ s.delayCorrection_ < 4294967296 ∧
  s.intervalAdj_ < 4294967296 ∧ s.acceleration_ < 4294967296 ∧
  s.currentInterval_ < 4294967296 ∧ s.decreaseStep_ < 4294967296

instance (s : ULN2003) : Decidable (InRange s) := by
  unfold InRange; infer_instance

/-! ## The collaborators -/

end ULN2003

/-- Modelled from the spec: `OneShot::start(us)` arms the one-shot, overwriting
any pending shot. -/
def OneShot.start (_t : OneShot) (us : Nat) : OneShot := { armed := some us, paused := false }

/-- Modelled from the spec: `OneShot::cancel()` disarms the scheduler. -/
def OneShot.cancel (_t : OneShot) : OneShot := { armed := none, paused := false }

/-- Modelled from the spec: `OneShot::pause()` freezes the scheduler. -/
def OneShot.pause (t : OneShot) : OneShot := { t with paused := true }

/-- Modelled from the spec: `OneShot::resume()` unfreezes the scheduler. -/
def OneShot.resume (t : OneShot) : OneShot := { t with paused := false }

/-- Modelled from the spec: `OneShot::update()`, the non-blocking poll.  `elapsed`
is the reading of the clock: whether the armed interval has gone by.  The poll
answers `true` only for an armed, unfrozen scheduler whose interval has elapsed,
and the shot is then spent. -/
def OneShot.update (t : OneShot) (elapsed : Bool) : Bool × OneShot :=
  if t.armed.isSome ∧ t.paused = false ∧ elapsed = true then (true, { t with armed := none })
  else (false, t)

namespace ULN2003

/-- One `digitalWrite(PINS[i], v)` on the record of line levels. -/
def Lines.write (ls : Lines) (i : Nat) (v : Bool) : Lines :=
  match i with
  | 0 => { ls with l0 := v }
  | 1 => { ls with l1 := v }
  | 2 => { ls with l2 := v }
  | 3 => { ls with l3 := v }
  | _ => ls

/-- The call `digitalWrite(PINS[i], v)`. -/
def digitalWrite (s : ULN2003) (i : Nat) (v : Bool) : ULN2003 :=
  { s with lines := s.lines.write i v, trace := s.trace ++ [Event.digitalWrite i v] }

/-- The call `interrupter_.start(us)`. -/
def timerStart (s : ULN2003) (us : Nat) : ULN2003 :=
  { s with interrupter_ := s.interrupter_.start us, trace := s.trace ++ [Event.timerStart us] }

/-! ## Excitation (`ULN2003.h` 177-187, `ULN2003.cpp` 193-205) -/

/-- The packed constant `PATTERNS`: the four one-phase nibbles in the low half
word, the four two-phase nibbles in the high half word. -/
def PATTERNS : Nat :=
  (0b0001 <<< (0*4)) ||| (0b0010 <<< (1*4)) ||| (0b0100 <<< (2*4)) ||| (0b1000 <<< (3*4))
  ||| (0b0011 <<< (4*4)) ||| (0b0110 <<< (5*4)) ||| (0b1100 <<< (6*4)) ||| (0b1001 <<< (7*4))

/-- The underlying value `static_cast<uint8_t>(phase_)`. -/
def Phase.toNat : Phase → Nat
  | Phase.ONE => 0
  | Phase.TWO => 1
  | Phase.HALF => 2

/-- The local `uint8_t current` of `excitation(step)`: the shifted `PATTERNS`,
truncated to eight bits by the assignment. -/
def excitationCurrent (phase : Phase) (step : Nat) : Nat :=
  if phase = Phase.HALF then
    ((PATTERNS >>> ((step % 2) * 16)) >>> ((step / 2) % 4 * 4)) % 256
  else
    ((PATTERNS >>> (phase.toNat * 16)) >>> ((step % 4) * 4)) % 256

/-- The level written to line `i`: `current & (1 << i)`, HIGH when non-zero. -/
def lineLevel (current i : Nat) : Bool := decide (current &&& (1 <<< i) ≠ 0)

/-- The member function `excitation(const uint32_t step)`: four writes, line 0 to 3. -/
def excitation (s : ULN2003) (step : Nat) : ULN2003 :=
  let current := excitationCurrent s.phase_ step
  let s0 := digitalWrite s 0 (lineLevel current 0)
  let s1 := digitalWrite s0 1 (lineLevel current 1)
  let s2 := digitalWrite s1 2 (lineLevel current 2)
  digitalWrite s2 3 (lineLevel current 3)

/-! ## Speed conversion and accessors (`ULN2003.h` 123, `ULN2003.cpp` 49-105) -/

/-- The member function `calcSpeed(const uint16_t sp)`:
`60L * (1000L * 1000L) / resolution_ / sp`.  The argument is converted to
`uint16_t` by the call; either division faults on a zero divisor. -/
def calcSpeed (s : ULN2003) (sp : Nat) : Except Fault Nat :=
  let sp16 := sp % 65536
  if s.resolution_ = 0 then Except.error Fault.divisionByZero
  else if sp16 = 0 then Except.error Fault.divisionByZero
  else Except.ok (60000000 / s.resolution_ / sp16)

def getStartSpeed (s : ULN2003) : Nat := s.startSpeed_

/-- The setter `setStartSpeed(const uint8_t speed)`. -/
def setStartSpeed (s : ULN2003) (speed : Nat) : ULN2003 :=
  { s with startSpeed_ := speed % 256 }

/-- The getter `getRPM()`: 0 for a zero interval, else `calcSpeed(interval_)`. -/
def getRPM (s : ULN2003) : Except Fault Nat :=
  if s.interval_ = 0 then Except.ok 0 else calcSpeed s s.interval_

/-- The setter `setRPM(const uint32_t rpm)`. -/
def setRPM (s : ULN2003) (rpm : Nat) : Except Fault ULN2003 :=
  if s.state_ ≠ State.STOPPED ∨ rpm = 0 then Except.ok s
  else match calcSpeed s rpm with
    | Except.error e => Except.error e
    | Except.ok v => Except.ok { s with interval_ := v }

def getInterval (s : ULN2003) : Nat := s.interval_

/-- The setter `setInterval(const uint32_t interval)`. -/
def setInterval (s : ULN2003) (interval : Nat) : ULN2003 :=
  if s.state_ ≠ State.STOPPED then s else { s with interval_ := interval % 4294967296 }

def getPhase (s : ULN2003) : Phase := s.phase_

/-- The setter `setPhase(const Phase phase)`. -/
def setPhase (s : ULN2003) (phase : Phase) : ULN2003 :=
  if s.state_ ≠ State.STOPPED then s else { s with phase_ := phase }

def getDelayCorrection (s : ULN2003) : Nat := s.delayCorrection_

/-- The corrected interval: `(interval_ > delayCorrection_) ? interval_ - delayCorrection_ : 1`. -/
def adjusted (interval delayCorrection : Nat) : Nat :=
  if interval > delayCorrection then interval - delayCorrection else 1

/-- The setter `setDelayCorrection(const uint32_t delayCorrection)`. -/
def setDelayCorrection (s : ULN2003) (delayCorrection : Nat) : ULN2003 :=
  let dc := delayCorrection % 4294967296
  { s with delayCorrection_ := dc, intervalAdj_ := adjusted s.interval_ dc }

/-- The getter `getAcceleration()`, which returns `uint16_t`. -/
def getAcceleration (s : ULN2003) : Nat := s.acceleration_ % 65536

/-- The setter `setAcceleration(const uint16_t a)`. -/
def setAcceleration (s : ULN2003) (a : Nat) : ULN2003 :=
  if s.state_ ≠ State.STOPPED then s else { s with acceleration_ := a % 65536 }

def isBlocking (s : ULN2003) : Bool := s.isBlocking_

def setBlocking (s : ULN2003) (b : Bool) : ULN2003 := { s with isBlocking_ := b }

/-- The getter `getStep()`, which returns `uint32_t`. -/
def getStep (s : ULN2003) : Nat := toUInt32 s.currentStep_

/-- The getter `getToStep()`, which returns `uint32_t`. -/
def getToStep (s : ULN2003) : Nat :=
  if s.state_ = State.STOPPED ∨ s.isInfinite_ = true then 0 else toUInt32 s.toStep_

def getDirection (s : ULN2003) : Dir := s.dir_

def getState (s : ULN2003) : State := s.state_

/-- The member initialisers of the constructor.  The lines are LOW and nothing
has been called on the collaborators yet (`pinMode` is not traced). -/
def initial (phase : Phase) (res : Nat) (delayCorrection : Nat) : ULN2003 :=
  { resolution_ := res % 65536, startSpeed_ := 10, currentStep_ := 0, toStep_ := 0,
    interval_ := 0, delayCorrection_ := delayCorrection % 4294967296, intervalAdj_ := 0,
    acceleration_ := 0, currentInterval_ := 0, decreaseStep_ := 0,
    isInfinite_ := false, isBlocking_ := false, state_ := State.STOPPED,
    phase_ := phase, dir_ := Dir.CW,
    interrupter_ := { armed := none, paused := false },
    lines := { l0 := false, l1 := false, l2 := false, l3 := false },
    trace := [] }

/-- The constructor: the member initialisers, then `setRPM(10)`. -/
def construct (phase : Phase) (res : Nat) (delayCorrection : Nat) : Except Fault ULN2003 :=
  setRPM (initial phase res delayCorrection) 10

/-! ## Motion (`ULN2003.h` 60-153, `ULN2003.cpp` 107-191) -/

/-- The member function `brake()`. -/
def brake (s : ULN2003) : ULN2003 :=
  let s1 : ULN2003 :=
    { s with state_ := State.STOPPED, isInfinite_ := false,
             interrupter_ := s.interrupter_.cancel,
             trace := s.trace ++ [Event.timerCancel] }
  digitalWrite (digitalWrite (digitalWrite (digitalWrite s1 0 false) 1 false) 2 false) 3 false

/-- The member function `checkInterval()`, in `uint32_t` arithmetic. -/
def checkInterval (s : ULN2003) : ULN2003 :=
  let s1 : ULN2003 :=
    if s.currentInterval_ > s.intervalAdj_ then
      { s with currentInterval_ :=
          toUInt32 ((s.currentInterval_ : Int) - (s.acceleration_ : Int)) }
    else s
  if s1.currentInterval_ < s1.intervalAdj_ then { s1 with currentInterval_ := s1.intervalAdj_ }
  else s1

/-- The member function `accel()`.  The comparisons of `currentStep_` (an
`int32_t`) with `decreaseStep_` (a `uint32_t`) are made in `uint32_t`. -/
def accel (s : ULN2003) : ULN2003 :=
  if s.acceleration_ ≠ 0 then
    let s1 : ULN2003 :=
      if s.dir_ = Dir.CW then
        if toUInt32 s.currentStep_ ≥ s.decreaseStep_ then
          { s with currentInterval_ := (s.currentInterval_ + s.acceleration_) % 4294967296 }
        else checkInterval s
      else
        if toUInt32 s.currentStep_ < s.decreaseStep_ then
          { s with currentInterval_ := (s.currentInterval_ + s.acceleration_) % 4294967296 }
        else checkInterval s
    timerStart s1 (if s1.phase_ = Phase.HALF then s1.currentInterval_ / 2 else s1.currentInterval_)
  else
    timerStart s s.intervalAdj_

/-- The member function `startTimer()`. -/
def startTimer (s : ULN2003) : Except Fault ULN2003 :=
  let s1 : ULN2003 := { s with intervalAdj_ := adjusted s.interval_ s.delayCorrection_ }
  if s1.acceleration_ = 0 then
    Except.ok (timerStart s1 (if s1.phase_ = Phase.HALF then s1.intervalAdj_ / 2 else s1.intervalAdj_))
  else
    match calcSpeed s1 s1.startSpeed_ with
    | Except.error e => Except.error e
    | Except.ok ci =>
      let base : Int := if s1.dir_ = Dir.CW then s1.toStep_ else toInt32 (- s1.toStep_)
      let s2 : ULN2003 :=
        { s1 with currentInterval_ := ci,
                  decreaseStep_ := (toUInt32 base + (ci / s1.acceleration_) / 2) % 4294967296 }
      Except.ok (accel s2)

/-- The last statement of `processStep()`:
`excitation((dir_ == Dir::CW) ? ++currentStep_ : --currentStep_)`; the
`int32_t` counter is converted to the `uint32_t` parameter. -/
def advance (s : ULN2003) : ULN2003 :=
  let next : Int :=
    if s.dir_ = Dir.CW then toInt32 (s.currentStep_ + 1) else toInt32 (s.currentStep_ - 1)
  excitation { s with currentStep_ := next } (toUInt32 next)

/-- The member function `processStep()`. -/
def processStep (s : ULN2003) : ULN2003 :=
  if s.isInfinite_ = false then
    if s.dir_ = Dir.CW then
      if s.currentStep_ ≥ s.toStep_ then brake s else advance s
    else
      if s.currentStep_ ≤ s.toStep_ then brake s else advance s
  else advance s

/-- The member function `update()`; `elapsed` is the reading of the clock at
this poll of the scheduler. -/
def update (s : ULN2003) (elapsed : Bool) : ULN2003 :=
  if s.state_ ≠ State.MOVING then s
  else
    let r := s.interrupter_.update elapsed
    let s1 : ULN2003 := { s with interrupter_ := r.2 }
    if r.1 = true then accel (processStep s1) else s1

/-- A run of `update()` calls, one per clock reading. -/
def updates : List Bool → ULN2003 → ULN2003
  | [], s => s
  | e :: es, s => updates es (update s e)

/-- The loop `while (state_ == State::MOVING) { update(); }`, as in
`blockWhileMoving()` and the blocking `move`.  `clock i` is the reading of the
clock at the `i`-th poll; the loop has `fuel` iterations to finish in. -/
def blockWhileMoving (clock : Nat → Bool) : Nat → ULN2003 → Except Fault ULN2003
  | 0, s => if s.state_ = State.MOVING then Except.error Fault.outOfFuel else Except.ok s
  | fuel + 1, s =>
    if s.state_ = State.MOVING then
      blockWhileMoving (fun i => clock (i + 1)) fuel (update s (clock 0))
    else Except.ok s

/-- The member function `move(const int32_t step, const bool isBlocking)`. -/
def move (clock : Nat → Bool) (fuel : Nat) (s : ULN2003) (step : Int) (blocking : Bool) :
    Except Fault ULN2003 :=
  if s.state_ ≠ State.STOPPED ∨ step = 0 ∨ s.interval_ = 0 then Except.ok s
  else
    let target := toInt32 (s.currentStep_ + step)
    let s1 : ULN2003 :=
      { s with state_ := State.MOVING, toStep_ := target,
               dir_ := if s.currentStep_ < target then Dir.CW else Dir.CCW }
    match startTimer s1 with
    | Except.error e => Except.error e
    | Except.ok s2 => if blocking = true then blockWhileMoving clock fuel s2 else Except.ok s2

/-- The member function `move(Dir dir)`. -/
def moveDir (s : ULN2003) (dir : Dir) : Except Fault ULN2003 :=
  if s.state_ ≠ State.STOPPED ∨ s.interval_ = 0 then Except.ok s
  else startTimer { s with state_ := State.MOVING, isInfinite_ := true, dir_ := dir }

/-- The member function `moveByRev(const int32_t rev, const bool isBlocking)`. -/
def moveByRev (clock : Nat → Bool) (fuel : Nat) (s : ULN2003) (rev : Int) (blocking : Bool) :
    Except Fault ULN2003 :=
  move clock fuel s
    (if s.phase_ = Phase.HALF then toInt32 (toInt32 (rev * (s.resolution_ : Int)) * 2)
     else toInt32 (rev * (s.resolution_ : Int)))
    blocking

/-- The member function `stop()`, in `uint32_t` arithmetic up to the assignment
to `toStep_`. -/
def stop (s : ULN2003) : Except Fault ULN2003 :=
  if s.state_ = State.STOPPED then Except.ok s
  else
    let s1 : ULN2003 := { s with decreaseStep_ := toUInt32 s.currentStep_ }
    match calcSpeed s1 s1.startSpeed_ with
    | Except.error e => Except.error e
    | Except.ok v =>
      if s1.acceleration_ = 0 then Except.error Fault.divisionByZero
      else
        let base : Nat :=
          if s1.dir_ = Dir.CW then s1.decreaseStep_ else toUInt32 (- (s1.decreaseStep_ : Int))
        let d : Nat := (toUInt32 ((v : Int) - (s1.intervalAdj_ : Int)) / s1.acceleration_) / 2
        Except.ok { s1 with toStep_ := toInt32 (((base + d) % 4294967296 : Nat) : Int) }

/-- The member function `pause()`. -/
def pause (s : ULN2003) : ULN2003 :=
  if s.state_ ≠ State.MOVING then s
  else { s with state_ := State.PAUSED, interrupter_ := s.interrupter_.pause,
                trace := s.trace ++ [Event.timerPause] }

/-- The member function `resume()`. -/
def resume (s : ULN2003) : ULN2003 :=
  if s.state_ ≠ State.PAUSED then s
  else { s with state_ := State.MOVING, interrupter_ := s.interrupter_.resume,
                trace := s.trace ++ [Event.timerResume] }

/-- The member function `toggleMoveStop(const int32_t step, const bool isBlocking)`. -/
def toggleMoveStop (clock : Nat → Bool) (fuel : Nat) (s : ULN2003) (step : Int)
    (blocking : Bool) : Except Fault (Bool × ULN2003) :=
  if s.state_ = State.MOVING then
    match stop s with
    | Except.error e => Except.error e
    | Except.ok s1 => Except.ok (false, s1)
  else
    match move clock fuel s step blocking with
    | Except.error e => Except.error e
    | Except.ok s1 => Except.ok (true, s1)

/-- The member function `toggleMoveStopByRev(const int32_t step, const bool isBlocking)`. -/
def toggleMoveStopByRev (clock : Nat → Bool) (fuel : Nat) (s : ULN2003) (step : Int)
    (blocking : Bool) : Except Fault (Bool × ULN2003) :=
  if s.state_ = State.MOVING then
    match stop s with
    | Except.error e => Except.error e
    | Except.ok s1 => Except.ok (false, s1)
  else
    match moveByRev clock fuel s step blocking with
    | Except.error e => Except.error e
    | Except.ok s1 => Except.ok (true, s1)

/-- The one-argument member function `toggleMoveStopByRev(const int32_t step)`,
whose body is `return toggleMoveStop(step, isBlocking_);`. -/
def toggleMoveStopByRev1 (clock : Nat → Bool) (fuel : Nat) (s : ULN2003) (step : Int) :
    Except Fault (Bool × ULN2003) :=
  toggleMoveStop clock fuel s step s.isBlocking_

/-- The member function `togglePauseResume()`. -/
def togglePauseResume (s : ULN2003) : Bool × ULN2003 :=
  if s.state_ = State.PAUSED then (true, resume s) else (false, pause s)

/-- The intervals with which the scheduler was armed, in order. -/
def armings : List Event → List Nat
  | [] => []
  | Event.timerStart us :: es => us :: armings es
  | _ :: es => armings es

/-- All four output lines are LOW. -/
def Lines.allLow (ls : Lines) : Prop :=
  ls.l0 = false ∧ ls.l1 = false ∧ ls.l2 = false ∧ ls.l3 = false

/-- Reference pattern of the spec, one-phase family: only line `k` is HIGH. -/
def onePhaseLines (k : Nat) : Lines :=
  { l0 := decide (k = 0), l1 := decide (k = 1), l2 := decide (k = 2), l3 := decide (k = 3) }

/-- Reference pattern of the spec, two-phase family: exactly the adjacent lines
`k` and `(k + 1) mod 4` are HIGH. -/
def twoPhaseLines (k : Nat) : Lines :=
  { l0 := decide (k = 0 ∨ (k + 1) % 4 = 0), l1 := decide (k = 1 ∨ (k + 1) % 4 = 1),
    l2 := decide (k = 2 ∨ (k + 1) % 4 = 2), l3 := decide (k = 3 ∨ (k + 1) % 4 = 3) }

/-- Reference pattern of the spec for a step index in a phase mode. -/
def referenceLines (phase : Phase) (step : Nat) : Lines :=
  match phase with
  | Phase.ONE => onePhaseLines (step % 4)
  | Phase.TWO => twoPhaseLines (step % 4)
  | Phase.HALF =>
    if step % 2 = 0 then onePhaseLines ((step / 2) % 4) else twoPhaseLines ((step / 2) % 4)

/-! ## Predicates on states -/

/-- The members that decide where the motor is and whether it moves. -/
def SameMotion (s s1 : ULN2003) : Prop :=
  s1.state_ = s.state_ ∧ s1.isInfinite_ = s.isInfinite_ ∧ s1.toStep_ = s.toStep_
    ∧ s1.currentStep_ = s.currentStep_ ∧ s1.dir_ = s.dir_ ∧ s1.lines = s.lines

/-- The scheduler holds a pending shot and is not frozen. -/
def Armed (s : ULN2003) : Prop :=
  s.interrupter_.armed.isSome = true ∧ s.interrupter_.paused = false

/-- The one-argument member function `move(const int32_t step)`. -/
def move1 (clock : Nat → Bool) (fuel : Nat) (s : ULN2003) (step : Int) : Except Fault ULN2003 :=
  move clock fuel s step s.isBlocking_

/-- The one-argument member function `moveByRev(const int32_t rev)`. -/
def moveByRev1 (clock : Nat → Bool) (fuel : Nat) (s : ULN2003) (rev : Int) :
    Except Fault ULN2003 :=
  moveByRev clock fuel s rev s.isBlocking_

/-- The one-argument member function `toggleMoveStop(const int32_t step)`. -/
def toggleMoveStop1 (clock : Nat → Bool) (fuel : Nat) (s : ULN2003) (step : Int) :
    Except Fault (Bool × ULN2003) :=
  toggleMoveStop clock fuel s step s.isBlocking_

/-- The states the class can be in: those produced by the constructor and then
by any sequence of calls of its public member functions that return.  The
wrappers (`moveByRev`, the `toggle` functions, `blockWhileMoving`, the
one-argument overloads) are compositions of the functions listed. -/
inductive Reachable : ULN2003 → Prop where
  | construct (phase : Phase) (res delayCorrection : Nat) (s : ULN2003) :
      construct phase res delayCorrection = Except.ok s → Reachable s
  | setStartSpeed (s : ULN2003) (speed : Nat) : Reachable s → Reachable (setStartSpeed s speed)
  | setRPM (s s1 : ULN2003) (rpm : Nat) :
      Reachable s → setRPM s rpm = Except.ok s1 → Reachable s1
  | setInterval (s : ULN2003) (interval : Nat) : Reachable s → Reachable (setInterval s interval)
  | setPhase (s : ULN2003) (phase : Phase) : Reachable s → Reachable (setPhase s phase)
  | setDelayCorrection (s : ULN2003) (dc : Nat) :
      Reachable s → Reachable (setDelayCorrection s dc)
  | setAcceleration (s : ULN2003) (a : Nat) : Reachable s → Reachable (setAcceleration s a)
  | setBlocking (s : ULN2003) (b : Bool) : Reachable s → Reachable (setBlocking s b)
  | move (s s1 : ULN2003) (clock : Nat → Bool) (fuel : Nat) (step : Int) (blocking : Bool) :
      Reachable s → move clock fuel s step blocking = Except.ok s1 → Reachable s1
  | moveDir (s s1 : ULN2003) (dir : Dir) :
      Reachable s → moveDir s dir = Except.ok s1 → Reachable s1
  | stop (s s1 : ULN2003) : Reachable s → stop s = Except.ok s1 → Reachable s1
  | pause (s : ULN2003) : Reachable s → Reachable (pause s)
  | resume (s : ULN2003) : Reachable s → Reachable (resume s)
  | brake (s : ULN2003) : Reachable s → Reachable (brake s)
  | update (s : ULN2003) (elapsed : Bool) : Reachable s → Reachable (update s elapsed)

/-- The data invariant used below: every member holds a value of its type, and
a STOPPED motor is not in free run. -/
def Sound (s : ULN2003) : Prop :=
  InRange s ∧ (s.state_ = State.STOPPED → s.isInfinite_ = false)

/-- One call of a public member function that returns: `Step s s1` says that some
call made in state `s` leaves the motor in state `s1`.  The wrappers
(`moveByRev`, the `toggle` functions, `blockWhileMoving`, the one-argument
overloads) are compositions of the calls listed. -/
inductive Step : ULN2003 → ULN2003 → Prop where
  | setStartSpeed (s : ULN2003) (speed : Nat) : Step s (setStartSpeed s speed)
  | setRPM (s s1 : ULN2003) (rpm : Nat) : setRPM s rpm = Except.ok s1 → Step s s1
  | setInterval (s : ULN2003) (interval : Nat) : Step s (setInterval s interval)
  | setPhase (s : ULN2003) (phase : Phase) : Step s (setPhase s phase)
  | setDelayCorrection (s : ULN2003) (dc : Nat) : Step s (setDelayCorrection s dc)
  | setAcceleration (s : ULN2003) (a : Nat) : Step s (setAcceleration s a)
  | setBlocking (s : ULN2003) (b : Bool) : Step s (setBlocking s b)
  | move (s s1 : ULN2003) (clock : Nat → Bool) (fuel : Nat) (step : Int) (blocking : Bool) :
      move clock fuel s step blocking = Except.ok s1 → Step s s1
  | moveDir (s s1 : ULN2003) (dir : Dir) : moveDir s dir = Except.ok s1 → Step s s1
  | stop (s s1 : ULN2003) : stop s = Except.ok s1 → Step s s1
  | pause (s : ULN2003) : Step s (pause s)
  | resume (s : ULN2003) : Step s (resume s)
  | brake (s : ULN2003) : Step s (brake s)
  | update (s : ULN2003) (elapsed : Bool) : Step s (update s elapsed)

/-- The condition under which `accel()` executes `currentInterval_ +=
acceleration_` (otherwise it calls `checkInterval()`): `currentStep_ >=
decreaseStep_` when `dir_` is CW, `currentStep_ < decreaseStep_` when it is not,
both compared in `uint32_t` as the code compares them. -/
def addsAcceleration (s : ULN2003) : Prop :=
  (s.dir_ = Dir.CW ∧ toUInt32 s.currentStep_ ≥ s.decreaseStep_)
    ∨ (s.dir_ = Dir.CCW ∧ toUInt32 s.currentStep_ < s.decreaseStep_)

instance (s : ULN2003) : Decidable (addsAcceleration s) := by
  unfold addsAcceleration; infer_instance

/-! ## Excitation: lemmas -/

theorem excitation_lines (s : ULN2003) (step : Nat) :
    (excitation s step).lines =
      { l0 := lineLevel (excitationCurrent s.phase_ step) 0,
        l1 := lineLevel (excitationCurrent s.phase_ step) 1,
        l2 := lineLevel (excitationCurrent s.phase_ step) 2,
        l3 := lineLevel (excitationCurrent s.phase_ step) 3 } := by
  simp [excitation, digitalWrite, Lines.write]

theorem excitation_trace (s : ULN2003) (step : Nat) :
    (excitation s step).trace =
      s.trace ++ [Event.digitalWrite 0 (excitation s step).lines.l0,
                  Event.digitalWrite 1 (excitation s step).lines.l1,
                  Event.digitalWrite 2 (excitation s step).lines.l2,
                  Event.digitalWrite 3 (excitation s step).lines.l3] := by
  simp [excitation, digitalWrite, Lines.write]

theorem excitationCurrent_half (a b : Nat) (h : a % 8 = b % 8) :
    excitationCurrent Phase.HALF a = excitationCurrent Phase.HALF b := by
  have h1 : a % 2 = b % 2 := by omega
  have h2 : a / 2 % 4 = b / 2 % 4 := by omega
  simp [excitationCurrent, h1, h2]

theorem excitationCurrent_full (phase : Phase) (hp : phase ≠ Phase.HALF) (a b : Nat)
    (h : a % 4 = b % 4) : excitationCurrent phase a = excitationCurrent phase b := by
  simp [excitationCurrent, hp, h]

theorem excitationCurrent_ONE (step : Nat) :
    excitationCurrent Phase.ONE step = ((PATTERNS >>> (0 * 16)) >>> ((step % 4) * 4)) % 256 := rfl

theorem excitationCurrent_TWO (step : Nat) :
    excitationCurrent Phase.TWO step = ((PATTERNS >>> (1 * 16)) >>> ((step % 4) * 4)) % 256 := rfl

theorem excitationCurrent_HALF (step : Nat) :
    excitationCurrent Phase.HALF step
      = ((PATTERNS >>> ((step % 2) * 16)) >>> ((step / 2) % 4 * 4)) % 256 := rfl

theorem excitationCurrent_reference (phase : Phase) (step : Nat) :
    ({ l0 := lineLevel (excitationCurrent phase step) 0,
       l1 := lineLevel (excitationCurrent phase step) 1,
       l2 := lineLevel (excitationCurrent phase step) 2,
       l3 := lineLevel (excitationCurrent phase step) 3 } : Lines) =
      referenceLines phase step := by
  cases phase
  · have hk : step % 4 < 4 := Nat.mod_lt _ (by decide)
    simp only [excitationCurrent_ONE, referenceLines]
    generalize step % 4 = k at hk
    interval_cases k <;> decide
  · have hk : step % 4 < 4 := Nat.mod_lt _ (by decide)
    simp only [excitationCurrent_TWO, referenceLines]
    generalize step % 4 = k at hk
    interval_cases k <;> decide
  · have hk : step / 2 % 4 < 4 := Nat.mod_lt _ (by decide)
    have hj : step % 2 < 2 := Nat.mod_lt _ (by decide)
    simp only [excitationCurrent_HALF, referenceLines]
    generalize step / 2 % 4 = k at hk
    generalize step % 2 = j at hj
    interval_cases k <;> interval_cases j <;> decide

/-! ## Machine integers: lemmas -/

theorem toInt32_of_range (x : Int) (hlo : -2147483648 ≤ x) (hhi : x < 2147483648) :
    toInt32 x = x := by
  unfold toInt32; omega

theorem toInt32_range (x : Int) : -2147483648 ≤ toInt32 x ∧ toInt32 x < 2147483648 := by
  unfold toInt32; omega

theorem toUInt32_lt (x : Int) : toUInt32 x < 4294967296 := by
  unfold toUInt32; omega

theorem toUInt32_toInt32 (x : Int) : toUInt32 (toInt32 x) = toUInt32 x := by
  unfold toUInt32 toInt32; omega

theorem toUInt32_mod8 (x : Int) : toUInt32 x % 8 = (x % 8).toNat := by
  unfold toUInt32; omega

theorem toUInt32_mod4 (x : Int) : toUInt32 x % 4 = (x % 4).toNat := by
  unfold toUInt32; omega

/-! ## Excitation: the pattern table -/

/-- C2: for every step value, `excitation(step)` writes to the four lines, in
the order line 0 to line 3, exactly the reference pattern: in ONE phase only
line `step mod 4` is HIGH, in TWO phase exactly lines `step mod 4` and
`(step mod 4 + 1) mod 4`, in HALF phase the one-phase pattern at `(step/2) mod 4`
for an even step and the two-phase pattern at that index for an odd step; steps
0..7 in HALF phase give 0001, 0011, 0010, 0110, 0100, 1100, 1000, 1001 (bit i =
line i). -/
theorem excitation_writes_reference_pattern (s : ULN2003) (step : Nat) :
    (excitation s step).lines = referenceLines s.phase_ step
    ∧ (excitation s step).trace =
        s.trace ++ [Event.digitalWrite 0 (referenceLines s.phase_ step).l0,
                    Event.digitalWrite 1 (referenceLines s.phase_ step).l1,
                    Event.digitalWrite 2 (referenceLines s.phase_ step).l2,
                    Event.digitalWrite 3 (referenceLines s.phase_ step).l3]
    ∧ (List.range 8).map (fun i => (excitation { s with phase_ := Phase.HALF } i).lines) =
        [ { l0 := true,  l1 := false, l2 := false, l3 := false },
          { l0 := true,  l1 := true,  l2 := false, l3 := false },
          { l0 := false, l1 := true,  l2 := false, l3 := false },
          { l0 := false, l1 := true,  l2 := true,  l3 := false },
          { l0 := false, l1 := false, l2 := true,  l3 := false },
          { l0 := false, l1 := false, l2 := true,  l3 := true  },
          { l0 := false, l1 := false, l2 := false, l3 := true  },
          { l0 := true,  l1 := false, l2 := false, l3 := true  } ] := by
  have hl : (excitation s step).lines = referenceLines s.phase_ step := by
    rw [excitation_lines, excitationCurrent_reference]
  refine ⟨hl, ?_, ?_⟩
  · rw [excitation_trace, hl]
  · simp only [excitation_lines, excitationCurrent_reference]
    decide

/-- C3: for every signed step counter value `x` (negative values included), the
pattern written for `x`, after the conversion of the counter to the `uint32_t`
parameter of `excitation`, equals the pattern written for `x + 4` (ONE and TWO
phase) resp. `x + 8` (HALF phase), the sum taken with 32-bit wrap-around; it is
the reference pattern of the floored modulo `x mod 4` resp. `x mod 8`, so the
sequence continues unbroken across zero. -/
theorem excitation_periodic_signed (s : ULN2003) (x : Int) :
    (excitation s (toUInt32 x)).lines
        = (excitation s (toUInt32 (toInt32 (x + (if s.phase_ = Phase.HALF then 8 else 4))))).lines
    ∧ (excitation s (toUInt32 x)).lines
        = referenceLines s.phase_ (x % (if s.phase_ = Phase.HALF then 8 else 4)).toNat := by
  by_cases hp : s.phase_ = Phase.HALF
  · simp only [hp, if_true, excitation_lines]
    have h1 : toUInt32 x % 8 = toUInt32 (toInt32 (x + 8)) % 8 := by
      rw [toUInt32_toInt32, toUInt32_mod8, toUInt32_mod8]; omega
    have h2 : toUInt32 x % 8 = (x % 8).toNat % 8 := by
      rw [toUInt32_mod8]; omega
    rw [← excitationCurrent_reference, excitationCurrent_half _ _ h1]
    refine ⟨rfl, ?_⟩
    rw [← excitationCurrent_half _ _ h1, excitationCurrent_half _ _ h2]
  · simp only [hp, if_false, excitation_lines]
    have h1 : toUInt32 x % 4 = toUInt32 (toInt32 (x + 4)) % 4 := by
      rw [toUInt32_toInt32, toUInt32_mod4, toUInt32_mod4]; omega
    have h2 : toUInt32 x % 4 = (x % 4).toNat % 4 := by
      rw [toUInt32_mod4]; omega
    rw [← excitationCurrent_reference, excitationCurrent_full _ hp _ _ h1]
    refine ⟨rfl, ?_⟩
    rw [← excitationCurrent_full _ hp _ _ h1, excitationCurrent_full _ hp _ _ h2]

/-! ## Speed conversion -/

theorem calcSpeed_ok (s : ULN2003) (sp : Nat) (hres : 0 < s.resolution_) (h0 : 0 < sp)
    (h16 : sp < 65536) : calcSpeed s sp = Except.ok (60000000 / s.resolution_ / sp) := by
  have h1 : s.resolution_ ≠ 0 := by omega
  have h2 : sp % 65536 = sp := Nat.mod_eq_of_lt h16
  have h3 : sp ≠ 0 := by omega
  simp [calcSpeed, h1, h2, h3]

/-- Within the sixteen bits of the parameter of `calcSpeed`, `setRPM(rpm)` stores
`floor(60,000,000 / (resolution * rpm))`. -/
theorem setRPM_interval_of_lt (s : ULN2003) (rpm : Nat) (hst : s.state_ = State.STOPPED)
    (hres : 0 < s.resolution_) (h0 : 0 < rpm) (h16 : rpm < 65536) :
    setRPM s rpm = Except.ok { s with interval_ := 60000000 / (s.resolution_ * rpm) } := by
  have h3 : rpm ≠ 0 := by omega
  simp [setRPM, hst, h3, calcSpeed_ok s rpm hres h0 h16, Nat.div_div_eq_div_mul]

/-- C4 (code at the failing input): on the default motor (resolution 2048,
STOPPED) `setRPM(65536)` passes the guard `rpm == 0`, the call of
`calcSpeed(const uint16_t)` converts the argument to 0 and the division faults;
`setRPM(65537)` stores `60,000,000 / 2048 / 1 = 29296` where
`floor(60,000,000 / (2048 * 65537))` is 0. -/
theorem setRPM_truncates_rpm :
    ∃ s, construct Phase.HALF 2048 0 = Except.ok s
      ∧ s.state_ = State.STOPPED ∧ s.resolution_ = 2048
      ∧ setRPM s 65536 = Except.error Fault.divisionByZero
      ∧ setRPM s 65537 = Except.ok { s with interval_ := 29296 }
      ∧ 60000000 / (2048 * 65537) = 0 := by
  refine ⟨_, rfl, rfl, rfl, rfl, rfl, by decide⟩

theorem div_div_self_round (q rpm : Nat) (h0 : 0 < rpm) (hi : 0 < q / rpm) :
    rpm ≤ q / (q / rpm) ∧ q / (q / (q / rpm)) = q / rpm
      ∧ (rpm ∣ q → q / (q / rpm) = rpm) := by
  have hr : rpm ≤ q / (q / rpm) := by
    rw [Nat.le_div_iff_mul_le hi]
    exact Nat.mul_div_le q rpm
  have hrpos : 0 < q / (q / rpm) := Nat.lt_of_lt_of_le h0 hr
  refine ⟨hr, ?_, ?_⟩
  · apply Nat.le_antisymm
    · exact Nat.div_le_div_left hr h0
    · rw [Nat.le_div_iff_mul_le hrpos]
      rw [Nat.mul_comm]
      exact Nat.div_mul_le_self q (q / rpm)
  · intro hd
    exact Nat.div_div_self hd (by
      intro hq
      rw [hq] at hi
      simp at hi)

/-- While neither `rpm` nor the stored interval exceeds the sixteen bits of the
parameter of `calcSpeed`, `getRPM()` after `setRPM(rpm)` returns `rpm` up to the
truncation of the integer division. -/
theorem getRPM_setRPM_of_lt (s : ULN2003) (rpm : Nat) (hst : s.state_ = State.STOPPED)
    (hres : 0 < s.resolution_) (h0 : 0 < rpm) (h16 : rpm < 65536)
    (hi0 : 0 < 60000000 / s.resolution_ / rpm) (hi16 : 60000000 / s.resolution_ / rpm < 65536) :
    ∃ s1 r, setRPM s rpm = Except.ok s1 ∧ s1.interval_ = 60000000 / s.resolution_ / rpm
      ∧ getRPM s1 = Except.ok r ∧ rpm ≤ r ∧ 60000000 / s.resolution_ / r = s1.interval_
      ∧ (rpm ∣ 60000000 / s.resolution_ → r = rpm) := by
  have h3 : rpm ≠ 0 := by omega
  have hne : 60000000 / s.resolution_ / rpm ≠ 0 := by omega
  obtain ⟨a, b, c⟩ := div_div_self_round (60000000 / s.resolution_) rpm h0 hi0
  refine ⟨{ s with interval_ := 60000000 / s.resolution_ / rpm }, _, ?_, rfl, ?_, a, b, c⟩
  · simp [setRPM, hst, h3, calcSpeed_ok s rpm hres h0 h16]
  · simp only [getRPM, hne, if_false]
    exact calcSpeed_ok _ _ hres hi0 hi16

/-- C5 (code at the failing input): with resolution 200, `setRPM(1)` stores the
interval 300000; `getRPM()` passes it to `calcSpeed(const uint16_t)`, which
converts it to `300000 mod 65536 = 37856` and returns 7: the value does not
convert back to the stored interval, and it is not `rpm` although 1 divides
`60,000,000 / 200`.  With resolution 2048, `setRPM(65537)` then `getRPM()`
returns 1, which is less than `rpm`. -/
theorem getRPM_truncates_interval :
    (∃ s s1, construct Phase.HALF 200 0 = Except.ok s
      ∧ setRPM s 1 = Except.ok s1 ∧ s1.interval_ = 300000
      ∧ getRPM s1 = Except.ok 7 ∧ 60000000 / 200 / 7 ≠ s1.interval_
      ∧ 1 ∣ 60000000 / 200)
    ∧ (∃ s s1, construct Phase.HALF 2048 0 = Except.ok s
      ∧ setRPM s 65537 = Except.ok s1 ∧ s1.interval_ = 29296
      ∧ getRPM s1 = Except.ok 1) := by
  refine ⟨⟨_, _, rfl, rfl, rfl, rfl, by decide, by decide⟩, ⟨_, _, rfl, rfl, rfl, rfl⟩⟩

/-! ## Rejected motion commands -/

/-- C6: `move(step, blocking)` called with `step == 0`, with `interval_ == 0` or
in a state other than STOPPED, and `move(dir)` called with `interval_ == 0` or
in a state other than STOPPED, return the motor as it was: every data member,
the scheduler, the line levels and the list of calls made on the collaborators
(no arming, no write) are unchanged. -/
theorem move_rejected_unchanged (clock : Nat → Bool) (fuel : Nat) (s : ULN2003) (step : Int)
    (blocking : Bool) (dir : Dir) :
    (s.state_ ≠ State.STOPPED ∨ step = 0 ∨ s.interval_ = 0 →
        move clock fuel s step blocking = Except.ok s)
    ∧ (s.state_ ≠ State.STOPPED ∨ s.interval_ = 0 → moveDir s dir = Except.ok s) := by
  constructor
  · intro h
    simp only [move, if_pos h]
  · intro h
    simp only [moveDir, if_pos h]

/-- The inputs of C6: a motor whose interval is 0 (the member initialisers, before
`setRPM`), for which both commands are rejected. -/
theorem move_rejected_unchanged_witness :
    move (fun _ => true) 0 (initial Phase.HALF 2048 0) 5 true
        = Except.ok (initial Phase.HALF 2048 0)
    ∧ moveDir (initial Phase.HALF 2048 0) Dir.CW = Except.ok (initial Phase.HALF 2048 0) :=
  ⟨(move_rejected_unchanged (fun _ => true) 0 (initial Phase.HALF 2048 0) 5 true Dir.CW).1
      (Or.inr (Or.inr rfl)),
   (move_rejected_unchanged (fun _ => true) 0 (initial Phase.HALF 2048 0) 5 true Dir.CW).2
      (Or.inr rfl)⟩

/-! ## `stop()` -/

theorem calcSpeed_error (s : ULN2003) (sp : Nat) (e : Fault) (h : calcSpeed s sp = Except.error e) :
    e = Fault.divisionByZero := by
  unfold calcSpeed at h
  by_cases h1 : s.resolution_ = 0
  · simp [h1] at h; exact h.symm
  · by_cases h2 : sp % 65536 = 0
    · simp [h1, h2] at h; exact h.symm
    · simp [h1, h2] at h

/-- C9 (code at the failing inputs): in every state other than STOPPED whose
`acceleration_` is 0, `stop()` does not complete: its expression divides by
`acceleration_` unguarded. -/
theorem stop_zero_acceleration_faults (s : ULN2003) (hst : s.state_ ≠ State.STOPPED)
    (hacc : s.acceleration_ = 0) : stop s = Except.error Fault.divisionByZero := by
  simp only [stop, if_neg hst]
  cases hc : calcSpeed { s with decreaseStep_ := toUInt32 s.currentStep_ } s.startSpeed_ with
  | error e => simp [calcSpeed_error _ _ _ hc]
  | ok v => simp [hacc]

/-- The failing input of C9: the motor as constructed (acceleration 0), after
`move(10, false)`. -/
theorem stop_zero_acceleration_faults_witness :
    ∃ s s1, construct Phase.HALF 2048 0 = Except.ok s
      ∧ move (fun _ => true) 0 s 10 false = Except.ok s1
      ∧ s1.state_ ≠ State.STOPPED ∧ s1.acceleration_ = 0
      ∧ stop s1 = Except.error Fault.divisionByZero :=
  ⟨_, _, rfl, rfl, by decide, rfl, stop_zero_acceleration_faults _ (by decide) rfl⟩

/-! ## Frame lemmas for the tick -/

theorem timerStart_frame (s : ULN2003) (us : Nat) :
    SameMotion s (timerStart s us) ∧ Armed (timerStart s us) := by
  simp [SameMotion, Armed, timerStart, OneShot.start]

theorem checkInterval_shape (s : ULN2003) :
    ∃ ci, checkInterval s = { s with currentInterval_ := ci } := by
  unfold checkInterval
  by_cases h1 : s.currentInterval_ > s.intervalAdj_
  · by_cases h2 : toUInt32 ((s.currentInterval_ : Int) - (s.acceleration_ : Int)) < s.intervalAdj_
    · exact ⟨s.intervalAdj_, by simp [h1, h2]⟩
    · exact ⟨toUInt32 ((s.currentInterval_ : Int) - (s.acceleration_ : Int)), by simp [h1, h2]⟩
  · by_cases h2 : s.currentInterval_ < s.intervalAdj_
    · exact ⟨s.intervalAdj_, by simp [h1, h2]⟩
    · exact ⟨s.currentInterval_, by simp [h1, h2]⟩

theorem accel_shape (s : ULN2003) :
    ∃ ci us, accel s = timerStart { s with currentInterval_ := ci } us := by
  obtain ⟨ci, hci⟩ := checkInterval_shape s
  unfold accel
  by_cases h0 : s.acceleration_ ≠ 0
  · simp only [if_pos h0]
    split_ifs <;> first
      | exact ⟨_, _, rfl⟩
      | (rw [hci]; exact ⟨_, _, rfl⟩)
  · simp only [if_neg h0]
    exact ⟨s.currentInterval_, s.intervalAdj_, rfl⟩

theorem accel_frame (s : ULN2003) : SameMotion s (accel s) ∧ Armed (accel s) := by
  obtain ⟨ci, us, h⟩ := accel_shape s
  rw [h]
  exact timerStart_frame _ _

theorem update_fire (s : ULN2003) (hst : s.state_ = State.MOVING) (ha : Armed s) :
    update s true
      = accel (processStep { s with interrupter_ := { s.interrupter_ with armed := none } }) := by
  obtain ⟨h1, h2⟩ := ha
  simp [update, OneShot.update, hst, h1, h2]

theorem update_idle (s : ULN2003) (e : Bool) (hst : s.state_ ≠ State.MOVING) : update s e = s := by
  simp [update, hst]

theorem brake_frame (s : ULN2003) :
    (brake s).state_ = State.STOPPED ∧ (brake s).isInfinite_ = false
      ∧ (brake s).currentStep_ = s.currentStep_ ∧ (brake s).lines.allLow := by
  simp [brake, digitalWrite, Lines.write, Lines.allLow]

theorem advance_frame (s : ULN2003) :
    (advance s).state_ = s.state_ ∧ (advance s).isInfinite_ = s.isInfinite_
      ∧ (advance s).toStep_ = s.toStep_ ∧ (advance s).dir_ = s.dir_
      ∧ (advance s).currentStep_ =
          (if s.dir_ = Dir.CW then toInt32 (s.currentStep_ + 1) else toInt32 (s.currentStep_ - 1)) := by
  simp [advance, excitation, digitalWrite]

/-- One elapsed tick short of the target: the counter moves by one in the
direction of travel and the scheduler is armed again. -/
theorem tick_advance (s : ULN2003) (hst : s.state_ = State.MOVING) (ha : Armed s)
    (hinf : s.isInfinite_ = false)
    (hgo : (s.dir_ = Dir.CW ∧ s.currentStep_ < s.toStep_)
      ∨ (s.dir_ = Dir.CCW ∧ s.toStep_ < s.currentStep_)) :
    (update s true).state_ = State.MOVING ∧ Armed (update s true)
      ∧ (update s true).isInfinite_ = false ∧ (update s true).dir_ = s.dir_
      ∧ (update s true).toStep_ = s.toStep_
      ∧ (update s true).currentStep_ =
          (if s.dir_ = Dir.CW then toInt32 (s.currentStep_ + 1) else toInt32 (s.currentStep_ - 1)) := by
  rw [update_fire s hst ha]
  obtain ⟨⟨f1, f2, f3, f4, f5, _⟩, fa⟩ :=
    accel_frame (processStep { s with interrupter_ := { s.interrupter_ with armed := none } })
  have hp : processStep { s with interrupter_ := { s.interrupter_ with armed := none } }
      = advance { s with interrupter_ := { s.interrupter_ with armed := none } } := by
    rcases hgo with ⟨hd, hlt⟩ | ⟨hd, hlt⟩
    · simp [processStep, hinf, hd, not_le.mpr hlt]
    · simp [processStep, hinf, hd, not_le.mpr hlt]
  obtain ⟨a1, a2, a3, a4, a5⟩ :=
    advance_frame { s with interrupter_ := { s.interrupter_ with armed := none } }
  rw [hp] at f1 f2 f3 f4 f5 fa
  rw [hp]
  refine ⟨?_, fa, ?_, ?_, ?_, ?_⟩
  · rw [f1, a1]; exact hst
  · rw [f2, a2]; exact hinf
  · rw [f5, a4]
  · rw [f3, a3]
  · rw [f4, a5]

/-- The elapsed tick at (or beyond) the target: `processStep` brakes. -/
theorem tick_arrive (s : ULN2003) (hst : s.state_ = State.MOVING) (ha : Armed s)
    (hinf : s.isInfinite_ = false)
    (hat : (s.dir_ = Dir.CW ∧ s.toStep_ ≤ s.currentStep_)
      ∨ (s.dir_ = Dir.CCW ∧ s.currentStep_ ≤ s.toStep_)) :
    (update s true).state_ = State.STOPPED ∧ (update s true).isInfinite_ = false
      ∧ (update s true).currentStep_ = s.currentStep_ ∧ (update s true).lines.allLow := by
  rw [update_fire s hst ha]
  obtain ⟨⟨f1, f2, _, f4, _, f6⟩, _⟩ :=
    accel_frame (processStep { s with interrupter_ := { s.interrupter_ with armed := none } })
  have hp : processStep { s with interrupter_ := { s.interrupter_ with armed := none } }
      = brake { s with interrupter_ := { s.interrupter_ with armed := none } } := by
    rcases hat with ⟨hd, hle⟩ | ⟨hd, hle⟩
    · simp [processStep, hinf, hd, hle]
    · simp [processStep, hinf, hd, hle]
  obtain ⟨b1, b2, b3, b4⟩ :=
    brake_frame { s with interrupter_ := { s.interrupter_ with armed := none } }
  rw [hp] at f1 f2 f4 f6
  rw [hp]
  refine ⟨?_, ?_, ?_, ?_⟩
  · rw [f1, b1]
  · rw [f2, b2]
  · rw [f4, b3]
  · rw [f6]; exact b4

/-! ## The blocking move -/

theorem blockWhileMoving_done (clock : Nat → Bool) (fuel : Nat) (s : ULN2003)
    (hst : s.state_ ≠ State.MOVING) : blockWhileMoving clock fuel s = Except.ok s := by
  cases fuel <;> simp [blockWhileMoving, hst]

/-- The busy-wait loop of a finite move whose target is `n` steps away, the
scheduler elapsing at every poll: `n + 1` iterations bring the motor to its
target and brake it. -/
theorem blockWhileMoving_reaches (n : Nat) :
    ∀ (s : ULN2003) (clock : Nat → Bool) (fuel : Nat),
      (∀ i, clock i = true) → s.state_ = State.MOVING → Armed s → s.isInfinite_ = false →
      ((s.dir_ = Dir.CW ∧ s.currentStep_ + n = s.toStep_)
        ∨ (s.dir_ = Dir.CCW ∧ s.currentStep_ - n = s.toStep_)) →
      (-2147483648 ≤ s.currentStep_ ∧ s.currentStep_ < 2147483648) →
      (-2147483648 ≤ s.toStep_ ∧ s.toStep_ < 2147483648) →
      n + 1 ≤ fuel →
      ∃ s1, blockWhileMoving clock fuel s = Except.ok s1 ∧ s1.state_ = State.STOPPED
        ∧ s1.isInfinite_ = false ∧ s1.currentStep_ = s.toStep_ ∧ s1.lines.allLow := by
  induction n with
  | zero =>
    intro s clock fuel hc hst ha hinf hd hcur _ hf
    obtain ⟨f, rfl⟩ : ∃ f, fuel = f + 1 := ⟨fuel - 1, by omega⟩
    have hat : (s.dir_ = Dir.CW ∧ s.toStep_ ≤ s.currentStep_)
        ∨ (s.dir_ = Dir.CCW ∧ s.currentStep_ ≤ s.toStep_) := by
      rcases hd with ⟨h1, h2⟩ | ⟨h1, h2⟩
      · exact Or.inl ⟨h1, by omega⟩
      · exact Or.inr ⟨h1, by omega⟩
    obtain ⟨t1, t2, t3, t4⟩ := tick_arrive s hst ha hinf hat
    refine ⟨update s true, ?_, t1, t2, ?_, t4⟩
    · simp only [blockWhileMoving, hst, if_true, hc 0]
      exact blockWhileMoving_done _ _ _ (by rw [t1]; decide)
    · rw [t3]; rcases hd with ⟨_, h2⟩ | ⟨_, h2⟩ <;> omega
  | succ n ih =>
    intro s clock fuel hc hst ha hinf hd hcur hto hf
    obtain ⟨f, rfl⟩ : ∃ f, fuel = f + 1 := ⟨fuel - 1, by omega⟩
    have hgo : (s.dir_ = Dir.CW ∧ s.currentStep_ < s.toStep_)
        ∨ (s.dir_ = Dir.CCW ∧ s.toStep_ < s.currentStep_) := by
      rcases hd with ⟨h1, h2⟩ | ⟨h1, h2⟩
      · exact Or.inl ⟨h1, by omega⟩
      · exact Or.inr ⟨h1, by omega⟩
    obtain ⟨t1, t2, t3, t4, t5, t6⟩ := tick_advance s hst ha hinf hgo
    have hcur1 : (update s true).currentStep_
        = (if s.dir_ = Dir.CW then s.currentStep_ + 1 else s.currentStep_ - 1) := by
      rw [t6]
      rcases hd with ⟨h1, h2⟩ | ⟨h1, h2⟩
      · simp only [h1, if_true]; exact toInt32_of_range _ (by omega) (by omega)
      · simp only [h1]; exact toInt32_of_range _ (by omega) (by omega)
    have hd1 : ((update s true).dir_ = Dir.CW
          ∧ (update s true).currentStep_ + n = (update s true).toStep_)
        ∨ ((update s true).dir_ = Dir.CCW
          ∧ (update s true).currentStep_ - n = (update s true).toStep_) := by
      rw [t4, t5, hcur1]
      rcases hd with ⟨h1, h2⟩ | ⟨h1, h2⟩
      · left; simp only [h1, if_true]; exact ⟨trivial, by omega⟩
      · right; simp only [h1]; exact ⟨trivial, by simp; omega⟩
    have hr1 : -2147483648 ≤ (update s true).currentStep_
        ∧ (update s true).currentStep_ < 2147483648 := by
      rw [hcur1]
      rcases hd with ⟨h1, h2⟩ | ⟨h1, h2⟩
      · simp only [h1, if_true]; omega
      · simp only [h1]; simp; omega
    obtain ⟨s1, r1, r2, r3, r4, r5⟩ :=
      ih (update s true) (fun i => clock (i + 1)) f (fun i => hc (i + 1)) t1 t2 t3 hd1 hr1
        (by rw [t5]; exact hto) (by omega)
    refine ⟨s1, ?_, r2, r3, ?_, r5⟩
    · simp only [blockWhileMoving, hst, if_true, hc 0]
      exact r1
    · rw [r4, t5]

theorem startTimer_ok (s : ULN2003)
    (h : s.acceleration_ = 0 ∨ (0 < s.resolution_ ∧ 0 < s.startSpeed_ ∧ s.startSpeed_ < 65536)) :
    ∃ s1, startTimer s = Except.ok s1 ∧ SameMotion s s1 ∧ Armed s1 := by
  by_cases h0 : s.acceleration_ = 0
  · have e : startTimer s
        = Except.ok (timerStart { s with intervalAdj_ := adjusted s.interval_ s.delayCorrection_ }
            (if s.phase_ = Phase.HALF then adjusted s.interval_ s.delayCorrection_ / 2
             else adjusted s.interval_ s.delayCorrection_)) := by
      unfold startTimer
      exact if_pos h0
    exact ⟨_, e, timerStart_frame _ _⟩
  · rcases h with h | ⟨h1, h2, h3⟩
    · exact absurd h h0
    · have hc := calcSpeed_ok { s with intervalAdj_ := adjusted s.interval_ s.delayCorrection_ }
        s.startSpeed_ h1 h2 h3
      have e : startTimer s
          = Except.ok (accel
              { s with intervalAdj_ := adjusted s.interval_ s.delayCorrection_,
                       currentInterval_ := 60000000 / s.resolution_ / s.startSpeed_,
                       decreaseStep_ :=
                         (toUInt32 (if s.dir_ = Dir.CW then s.toStep_ else toInt32 (- s.toStep_))
                           + (60000000 / s.resolution_ / s.startSpeed_ / s.acceleration_) / 2)
                           % 4294967296 }) := by
        unfold startTimer
        simp only [if_neg h0, hc]
      exact ⟨_, e, accel_frame _⟩

/-- C1: from every STOPPED state (whose members hold values of their types and
whose `isInfinite_` is false, as in every STOPPED state the class produces) with
resolution > 0 and a non-zero interval, for every non-zero step count `N` such
that `currentStep_ + N` does not overflow `int32_t`, with acceleration 0 or a
non-zero start speed, the blocking call `move(N, true)`, the scheduler elapsing
at every `update()`, terminates (any fuel of at least `|N| + 1` iterations of the
busy-wait loop is enough); on return `currentStep_` is its initial value plus
`N`, the state is STOPPED, `isInfinite_` is false and all four lines are LOW. -/
theorem move_blocking_completes (s : ULN2003) (N : Int) (fuel : Nat)
    (hr : InRange s) (hst : s.state_ = State.STOPPED) (hinf : s.isInfinite_ = false)
    (hres : 0 < s.resolution_) (hint : s.interval_ ≠ 0) (hN : N ≠ 0)
    (hsum : -2147483648 ≤ s.currentStep_ + N ∧ s.currentStep_ + N < 2147483648)
    (hacc : s.acceleration_ = 0 ∨ s.startSpeed_ ≠ 0)
    (hfuel : N.natAbs + 1 ≤ fuel) :
    ∃ s1, move (fun _ => true) fuel s N true = Except.ok s1
      ∧ s1.currentStep_ = s.currentStep_ + N ∧ s1.state_ = State.STOPPED
      ∧ s1.isInfinite_ = false ∧ s1.lines.allLow := by
  obtain ⟨_, hss, hcur, _⟩ := hr
  have htgt : toInt32 (s.currentStep_ + N) = s.currentStep_ + N :=
    toInt32_of_range _ hsum.1 hsum.2
  have hguard : ¬ (s.state_ ≠ State.STOPPED ∨ N = 0 ∨ s.interval_ = 0) := by
    simp [hst, hN, hint]
  have hacc1 : s.acceleration_ = 0
      ∨ (0 < s.resolution_ ∧ 0 < s.startSpeed_ ∧ s.startSpeed_ < 65536) := by
    rcases hacc with h | h
    · exact Or.inl h
    · exact Or.inr ⟨hres, by omega, by omega⟩
  obtain ⟨s2, e2, ⟨m1, m2, m3, m4, m5, _⟩, ha2⟩ :=
    startTimer_ok
      { s with state_ := State.MOVING, toStep_ := toInt32 (s.currentStep_ + N),
               dir_ := if s.currentStep_ < toInt32 (s.currentStep_ + N) then Dir.CW else Dir.CCW }
      hacc1
  simp only [htgt] at m3 m5
  have hd : (s2.dir_ = Dir.CW ∧ s2.currentStep_ + (N.natAbs : Int) = s2.toStep_)
      ∨ (s2.dir_ = Dir.CCW ∧ s2.currentStep_ - (N.natAbs : Int) = s2.toStep_) := by
    rw [m5, m4, m3]
    by_cases hpos : 0 < N
    · left
      have hlt : s.currentStep_ < s.currentStep_ + N := by omega
      simp only [hlt, if_true]
      exact ⟨trivial, by omega⟩
    · right
      have hlt : ¬ s.currentStep_ < s.currentStep_ + N := by omega
      simp only [hlt, if_false]
      exact ⟨trivial, by omega⟩
  obtain ⟨s3, e3, r1, r2, r3, r4⟩ :=
    blockWhileMoving_reaches N.natAbs s2 (fun _ => true) fuel (fun _ => rfl) m1
      ha2 (by rw [m2]; exact hinf) hd (by rw [m4]; exact hcur) (by rw [m3]; exact hsum) hfuel
  refine ⟨s3, ?_, ?_, r1, r2, r4⟩
  · simp only [move, if_neg hguard, e2, if_true]
    exact e3
  · rw [r3, m3]

/-- An input of C1: the motor as constructed (HALF phase, resolution 2048,
interval 2929) with acceleration 5, moved by -3 steps. -/
theorem move_blocking_completes_witness :
    ∃ s1, move (fun _ => true) 4
        { initial Phase.HALF 2048 0 with interval_ := 2929, acceleration_ := 5 } (-3) true
          = Except.ok s1
      ∧ s1.currentStep_ = (0 : Int) + (-3) ∧ s1.state_ = State.STOPPED
      ∧ s1.isInfinite_ = false ∧ s1.lines.allLow :=
  move_blocking_completes
    { initial Phase.HALF 2048 0 with interval_ := 2929, acceleration_ := 5 } (-3) 4
    (by decide) rfl rfl (by decide) (by decide) (by decide) (by decide) (by decide) (by decide)

/-! ## `stop()` on a moving motor -/

theorem stop_frame (s s1 : ULN2003) (h : stop s = Except.ok s1) :
    s1.isInfinite_ = s.isInfinite_ ∧ s1.state_ = s.state_ ∧ s1.currentStep_ = s.currentStep_
      ∧ s1.dir_ = s.dir_ := by
  unfold stop at h
  by_cases hst : s.state_ = State.STOPPED
  · simp only [if_pos hst] at h
    cases h
    exact ⟨rfl, rfl, rfl, rfl⟩
  · simp only [if_neg hst] at h
    cases hc : calcSpeed { s with decreaseStep_ := toUInt32 s.currentStep_ } s.startSpeed_ with
    | error e => simp [hc] at h
    | ok v =>
      simp only [hc] at h
      by_cases h0 : s.acceleration_ = 0
      · simp [h0] at h
      · simp only [if_neg h0] at h
        cases h
        exact ⟨rfl, rfl, rfl, rfl⟩

theorem fired_freeRun (s : ULN2003) (hst : s.state_ = State.MOVING)
    (hinf : s.isInfinite_ = true) :
    (accel (processStep s)).state_ = State.MOVING
      ∧ (accel (processStep s)).isInfinite_ = true := by
  have hp : processStep s = advance s := by simp [processStep, hinf]
  obtain ⟨⟨f1, f2, _⟩, _⟩ := accel_frame (processStep s)
  obtain ⟨a1, a2, _⟩ := advance_frame s
  rw [f1, f2, hp, a1, a2]
  exact ⟨hst, hinf⟩

theorem update_freeRun (s : ULN2003) (e : Bool) (hst : s.state_ = State.MOVING)
    (hinf : s.isInfinite_ = true) :
    (update s e).state_ = State.MOVING ∧ (update s e).isInfinite_ = true := by
  have key : ∀ t : OneShot,
      (accel (processStep { s with interrupter_ := t })).state_ = State.MOVING
        ∧ (accel (processStep { s with interrupter_ := t })).isInfinite_ = true :=
    fun t => fired_freeRun { s with interrupter_ := t } hst hinf
  unfold update
  rw [if_neg (by simp [hst])]
  dsimp only
  split_ifs
  · exact key _
  · exact ⟨hst, hinf⟩

theorem updates_freeRun (polls : List Bool) :
    ∀ s : ULN2003, s.state_ = State.MOVING → s.isInfinite_ = true →
      (updates polls s).state_ = State.MOVING ∧ (updates polls s).isInfinite_ = true := by
  induction polls with
  | nil => intro s h1 h2; exact ⟨h1, h2⟩
  | cons e es ih =>
    intro s h1 h2
    obtain ⟨u1, u2⟩ := update_freeRun s e h1 h2
    exact ih (update s e) u1 u2

/-- C7 (code at the failing input): the motor as constructed, with acceleration
10, after `move(CW)` and one elapsed tick: `stop()` returns with `isInfinite_`
still true, and whatever the clock does afterwards the state stays MOVING: the
motor never reaches STOPPED. -/
theorem stop_leaves_free_run :
    ∃ s s1 s2, construct Phase.HALF 2048 0 = Except.ok s
      ∧ moveDir (setAcceleration s 10) Dir.CW = Except.ok s1
      ∧ stop (update s1 true) = Except.ok s2
      ∧ s2.isInfinite_ = true
      ∧ ∀ polls : List Bool, (updates polls s2).state_ = State.MOVING
          ∧ (updates polls s2).isInfinite_ = true :=
  ⟨_, _, _, rfl, rfl, rfl, rfl, fun polls => updates_freeRun polls _ rfl rfl⟩

/-- C8 (code at the failing input): the motor as constructed, with `setRPM(15)`
and acceleration 100, after `move(-50, false)` and ten elapsed ticks: direction
CCW, `currentStep_ = -10`, `intervalAdj_ = 1953`, so d = ((2929 - 1953) / 100) / 2
= 4; `stop()` sets `toStep_` to `-(-10) + 4 = 14`, not to `-10 - 4 = -14`, and 14
lies behind the counter for a CCW move. -/
theorem stop_target_counter_clockwise :
    ∃ s s1 s2 s3, construct Phase.HALF 2048 0 = Except.ok s
      ∧ setRPM s 15 = Except.ok s1
      ∧ move (fun _ => true) 0 (setAcceleration s1 100) (-50) false = Except.ok s2
      ∧ stop (updates (List.replicate 10 true) s2) = Except.ok s3
      ∧ (updates (List.replicate 10 true) s2).state_ = State.MOVING
      ∧ (updates (List.replicate 10 true) s2).dir_ = Dir.CCW
      ∧ (updates (List.replicate 10 true) s2).currentStep_ = -10
      ∧ (updates (List.replicate 10 true) s2).intervalAdj_ = 1953
      ∧ (updates (List.replicate 10 true) s2).acceleration_ = 100
      ∧ ((60000000 / 2048 / 10 - 1953) / 100) / 2 = 4
      ∧ s3.currentStep_ = -10 ∧ s3.toStep_ = 14 :=
  ⟨_, _, _, _, rfl, rfl, rfl, rfl, rfl, rfl, rfl, rfl, rfl, by decide, rfl, rfl⟩

/-! ## Arming without a ramp -/

theorem accel_zero_acceleration (s : ULN2003) (h : s.acceleration_ = 0) :
    accel s = timerStart s s.intervalAdj_ := by
  simp [accel, h]

/-- C10 (code at the failing input): the motor as constructed (HALF phase,
acceleration 0, interval 2929), after `move(3, false)` and two elapsed ticks:
the scheduler was armed with `intervalAdj_ / 2 = 1464` when the move started and
with the whole `intervalAdj_ = 2929` after each tick. -/
theorem half_phase_rearms_unhalved :
    ∃ s s1, construct Phase.HALF 2048 0 = Except.ok s
      ∧ s.acceleration_ = 0 ∧ s.phase_ = Phase.HALF
      ∧ move (fun _ => true) 0 s 3 false = Except.ok s1
      ∧ s1.intervalAdj_ = 2929
      ∧ armings s1.trace = [1464]
      ∧ armings (updates [true, true] s1).trace = [1464, 2929, 2929]
      ∧ (updates [true, true] s1).state_ = State.MOVING :=
  ⟨_, _, rfl, rfl, rfl, rfl, rfl, rfl, rfl, rfl⟩

/-! ## The data invariant of reachable states -/

theorem calcSpeed_le (s : ULN2003) (sp v : Nat) (h : calcSpeed s sp = Except.ok v) :
    v ≤ 60000000 := by
  unfold calcSpeed at h
  by_cases h1 : s.resolution_ = 0
  · simp [h1] at h
  · by_cases h2 : sp % 65536 = 0
    · simp [h1, h2] at h
    · simp [h1, h2] at h
      rw [← h]
      exact Nat.le_trans (Nat.div_le_self _ _) (Nat.div_le_self _ _)

theorem adjusted_lt (i d : Nat) (h : i < 4294967296) : adjusted i d < 4294967296 := by
  unfold adjusted
  split_ifs <;> omega

theorem checkInterval_sound (s : ULN2003) (h : Sound s) : Sound (checkInterval s) := by
  obtain ⟨hr, hs⟩ := h
  unfold checkInterval
  have hu := toUInt32_lt ((s.currentInterval_ : Int) - (s.acceleration_ : Int))
  by_cases h1 : s.currentInterval_ > s.intervalAdj_
  · by_cases h2 : toUInt32 ((s.currentInterval_ : Int) - (s.acceleration_ : Int)) < s.intervalAdj_
    · simp only [h1, h2, if_true]
      refine ⟨?_, hs⟩
      unfold InRange at *
      dsimp only at *
      omega
    · simp only [h1, h2, if_true, if_false]
      refine ⟨?_, hs⟩
      unfold InRange at *
      dsimp only at *
      omega
  · by_cases h2 : s.currentInterval_ < s.intervalAdj_
    · simp only [h1, h2, if_true, if_false]
      refine ⟨?_, hs⟩
      unfold InRange at *
      dsimp only at *
      omega
    · simp only [h1, h2, if_false]
      exact ⟨hr, hs⟩

theorem timerStart_sound (s : ULN2003) (us : Nat) (h : Sound s) : Sound (timerStart s us) := h

theorem accel_sound (s : ULN2003) (h : Sound s) : Sound (accel s) := by
  have hc := checkInterval_sound s h
  have hadd : Sound { s with currentInterval_ := (s.currentInterval_ + s.acceleration_) % 4294967296 } := by
    obtain ⟨hr, hs⟩ := h
    refine ⟨?_, hs⟩
    unfold InRange at *
    dsimp only at *
    omega
  unfold accel
  split_ifs <;> first
    | exact timerStart_sound _ _ hadd
    | exact timerStart_sound _ _ hc
    | exact timerStart_sound _ _ h

theorem brake_sound (s : ULN2003) (h : Sound s) : Sound (brake s) :=
  ⟨h.1, fun _ => rfl⟩

theorem advance_sound (s : ULN2003) (h : Sound s) : Sound (advance s) := by
  obtain ⟨hr, hs⟩ := h
  have h1 := toInt32_range (s.currentStep_ + 1)
  have h2 := toInt32_range (s.currentStep_ - 1)
  refine ⟨?_, hs⟩
  unfold InRange at *
  simp only [advance, excitation, digitalWrite]
  split_ifs <;> omega

theorem processStep_sound (s : ULN2003) (h : Sound s) : Sound (processStep s) := by
  unfold processStep
  split_ifs <;> first
    | exact brake_sound s h
    | exact advance_sound s h

theorem update_sound (s : ULN2003) (e : Bool) (h : Sound s) : Sound (update s e) := by
  have key : ∀ t : OneShot, Sound { s with interrupter_ := t } := fun _ => h
  unfold update
  dsimp only
  split_ifs
  · exact h
  · exact accel_sound _ (processStep_sound _ (key _))
  · exact key _

theorem blockWhileMoving_sound (fuel : Nat) :
    ∀ (clock : Nat → Bool) (s s1 : ULN2003), Sound s →
      blockWhileMoving clock fuel s = Except.ok s1 → Sound s1 := by
  induction fuel with
  | zero =>
    intro clock s s1 h e
    unfold blockWhileMoving at e
    split_ifs at e
    cases e
    exact h
  | succ f ih =>
    intro clock s s1 h e
    unfold blockWhileMoving at e
    split_ifs at e
    · exact ih _ _ _ (update_sound s (clock 0) h) e
    · cases e
      exact h

theorem startTimer_sound (s s1 : ULN2003) (h : Sound s) (e : startTimer s = Except.ok s1) :
    Sound s1 := by
  obtain ⟨hr, hs⟩ := h
  have hadj : adjusted s.interval_ s.delayCorrection_ < 4294967296 :=
    adjusted_lt _ _ (by unfold InRange at hr; omega)
  have h1 : Sound { s with intervalAdj_ := adjusted s.interval_ s.delayCorrection_ } := by
    refine ⟨?_, hs⟩
    unfold InRange at *
    dsimp only at *
    omega
  unfold startTimer at e
  by_cases h0 : s.acceleration_ = 0
  · simp only [h0, if_true] at e
    cases e
    exact timerStart_sound _ _ (by simpa [h0] using h1)
  · simp only [h0, if_false] at e
    cases hc : calcSpeed { s with intervalAdj_ := adjusted s.interval_ s.delayCorrection_ }
        s.startSpeed_ with
    | error err => simp [hc] at e
    | ok ci =>
      simp only [hc] at e
      cases e
      have hci := calcSpeed_le _ _ _ hc
      apply accel_sound
      refine ⟨?_, hs⟩
      have hm : (toUInt32 (if s.dir_ = Dir.CW then s.toStep_ else toInt32 (- s.toStep_))
          + ci / s.acceleration_ / 2) % 4294967296 < 4294967296 :=
        Nat.mod_lt _ (by decide)
      unfold InRange at *
      dsimp only at *
      omega

theorem setRPM_sound (s s1 : ULN2003) (rpm : Nat) (h : Sound s)
    (e : setRPM s rpm = Except.ok s1) : Sound s1 := by
  obtain ⟨hr, hs⟩ := h
  unfold setRPM at e
  split_ifs at e
  · cases e
    exact ⟨hr, hs⟩
  · cases hc : calcSpeed s rpm with
    | error err => simp [hc] at e
    | ok v =>
      simp only [hc] at e
      cases e
      have hv := calcSpeed_le _ _ _ hc
      refine ⟨?_, hs⟩
      unfold InRange at *
      dsimp only at *
      omega

theorem construct_sound (phase : Phase) (res dc : Nat) (s : ULN2003)
    (e : construct phase res dc = Except.ok s) : Sound s := by
  refine setRPM_sound (initial phase res dc) s 10 ⟨?_, fun _ => rfl⟩ e
  have h1 : res % 65536 < 65536 := Nat.mod_lt _ (by decide)
  have h2 : dc % 4294967296 < 4294967296 := Nat.mod_lt _ (by decide)
  unfold InRange initial
  dsimp only
  omega

theorem setters_sound (s : ULN2003) (h : Sound s) (n : Nat) (phase : Phase) (b : Bool) :
    Sound (setStartSpeed s n) ∧ Sound (setInterval s n) ∧ Sound (setPhase s phase)
      ∧ Sound (setDelayCorrection s n) ∧ Sound (setAcceleration s n)
      ∧ Sound (setBlocking s b) := by
  obtain ⟨hr, hs⟩ := h
  have h1 : n % 256 < 256 := Nat.mod_lt _ (by decide)
  have h2 : n % 4294967296 < 4294967296 := Nat.mod_lt _ (by decide)
  have h3 : n % 65536 < 65536 := Nat.mod_lt _ (by decide)
  have h4 : adjusted s.interval_ (n % 4294967296) < 4294967296 :=
    adjusted_lt _ _ (by unfold InRange at hr; omega)
  refine ⟨⟨?_, hs⟩, ?_, ?_, ⟨?_, hs⟩, ?_, ⟨hr, hs⟩⟩
  · unfold InRange setStartSpeed at *
    dsimp only at *
    omega
  · unfold setInterval
    split_ifs
    · exact ⟨hr, hs⟩
    · refine ⟨?_, hs⟩
      unfold InRange at *
      dsimp only at *
      omega
  · unfold setPhase
    split_ifs
    · exact ⟨hr, hs⟩
    · exact ⟨hr, hs⟩
  · unfold InRange setDelayCorrection at *
    dsimp only at *
    omega
  · unfold setAcceleration
    split_ifs
    · exact ⟨hr, hs⟩
    · refine ⟨?_, hs⟩
      unfold InRange at *
      dsimp only at *
      omega

theorem move_sound (clock : Nat → Bool) (fuel : Nat) (s s1 : ULN2003) (step : Int)
    (blocking : Bool) (h : Sound s) (e : move clock fuel s step blocking = Except.ok s1) :
    Sound s1 := by
  unfold move at e
  by_cases hg : s.state_ ≠ State.STOPPED ∨ step = 0 ∨ s.interval_ = 0
  · rw [if_pos hg] at e
    cases e
    exact h
  · rw [if_neg hg] at e
    have hm : Sound
        { s with state_ := State.MOVING, toStep_ := toInt32 (s.currentStep_ + step),
                 dir_ := if s.currentStep_ < toInt32 (s.currentStep_ + step) then Dir.CW
                         else Dir.CCW } := by
      obtain ⟨hr, _⟩ := h
      have ht := toInt32_range (s.currentStep_ + step)
      refine ⟨?_, fun hc => by cases hc⟩
      unfold InRange at *
      dsimp only at *
      omega
    dsimp only at e
    cases hs : startTimer
        { s with state_ := State.MOVING, toStep_ := toInt32 (s.currentStep_ + step),
                 dir_ := if s.currentStep_ < toInt32 (s.currentStep_ + step) then Dir.CW
                         else Dir.CCW } with
    | error err => simp [hs] at e
    | ok s2 =>
      have h2 := startTimer_sound _ _ hm hs
      simp only [hs] at e
      by_cases hb : blocking = true
      · rw [if_pos hb] at e
        exact blockWhileMoving_sound fuel clock s2 s1 h2 e
      · rw [if_neg hb] at e
        cases e
        exact h2

theorem moveDir_sound (s s1 : ULN2003) (dir : Dir) (h : Sound s)
    (e : moveDir s dir = Except.ok s1) : Sound s1 := by
  unfold moveDir at e
  by_cases hg : s.state_ ≠ State.STOPPED ∨ s.interval_ = 0
  · rw [if_pos hg] at e
    cases e
    exact h
  · rw [if_neg hg] at e
    have hm : Sound { s with state_ := State.MOVING, isInfinite_ := true, dir_ := dir } :=
      ⟨h.1, fun hc => by cases hc⟩
    exact startTimer_sound _ _ hm e

theorem stop_assign_sound (s : ULN2003) (d : Nat) (x : Int) (h : Sound s)
    (hd : d < 4294967296) :
    Sound { s with decreaseStep_ := d, toStep_ := toInt32 x } := by
  obtain ⟨hr, hs⟩ := h
  have ht := toInt32_range x
  refine ⟨?_, hs⟩
  unfold InRange at *
  dsimp only at *
  omega

theorem stop_sound (s s1 : ULN2003) (h : Sound s) (e : stop s = Except.ok s1) : Sound s1 := by
  unfold stop at e
  by_cases hst : s.state_ = State.STOPPED
  · rw [if_pos hst] at e
    cases e
    exact h
  · rw [if_neg hst] at e
    cases hc : calcSpeed { s with decreaseStep_ := toUInt32 s.currentStep_ } s.startSpeed_ with
    | error err => simp [hc] at e
    | ok v =>
      simp only [hc] at e
      by_cases h0 : s.acceleration_ = 0
      · simp [h0] at e
      · rw [if_neg h0] at e
        cases e
        exact stop_assign_sound s _ _ h (toUInt32_lt _)

theorem pause_resume_sound (s : ULN2003) (h : Sound s) :
    Sound (pause s) ∧ Sound (resume s) := by
  obtain ⟨hr, hs⟩ := h
  constructor
  · unfold pause
    split_ifs
    · exact ⟨hr, hs⟩
    · exact ⟨hr, fun hc => by cases hc⟩
  · unfold resume
    split_ifs
    · exact ⟨hr, hs⟩
    · exact ⟨hr, fun hc => by cases hc⟩

/-- In every state the class can be in, each member holds a value of its C++
type, and a STOPPED motor has `isInfinite_` false: the two side conditions under
which the blocking move is proved to complete. -/
theorem reachable_sound (s : ULN2003) (h : Reachable s) : Sound s := by
  induction h with
  | construct phase res dc s e => exact construct_sound phase res dc s e
  | setStartSpeed s n _ ih => exact (setters_sound s ih n Phase.ONE false).1
  | setRPM s s1 rpm _ e ih => exact setRPM_sound s s1 rpm ih e
  | setInterval s n _ ih => exact (setters_sound s ih n Phase.ONE false).2.1
  | setPhase s ph _ ih => exact (setters_sound s ih 0 ph false).2.2.1
  | setDelayCorrection s n _ ih => exact (setters_sound s ih n Phase.ONE false).2.2.2.1
  | setAcceleration s n _ ih => exact (setters_sound s ih n Phase.ONE false).2.2.2.2.1
  | setBlocking s b _ ih => exact (setters_sound s ih 0 Phase.ONE b).2.2.2.2.2
  | move s s1 clock fuel step blocking _ e ih => exact move_sound clock fuel s s1 step blocking ih e
  | moveDir s s1 dir _ e ih => exact moveDir_sound s s1 dir ih e
  | stop s s1 _ e ih => exact stop_sound s s1 ih e
  | pause s _ ih => exact (pause_resume_sound s ih).1
  | resume s _ ih => exact (pause_resume_sound s ih).2
  | brake s _ ih => exact brake_sound s ih
  | update s e _ ih => exact update_sound s e ih

/-! ## Pause and resume -/

theorem updates_idle (polls : List Bool) :
    ∀ s : ULN2003, s.state_ ≠ State.MOVING → updates polls s = s := by
  induction polls with
  | nil => intro s _; rfl
  | cons e es ih =>
    intro s h
    simp only [updates, update_idle s e h]
    exact ih s h

/-- C11: for every MOVING state `s`, `resume()` after `pause()` (and after any
number of `update()` calls made while PAUSED, which change nothing) gives back
`s` in every data member and line level: the only differences are the two calls
`pause`, `resume` recorded on the scheduler, which ends unfrozen; with the
scheduler unfrozen in `s`, the state is `s` itself up to the record of calls.
`pause()` is a no-op unless the state is MOVING and `resume()` a no-op unless
it is PAUSED; neither writes an output line. -/
theorem pause_resume_roundtrip (s : ULN2003) (polls : List Bool) :
    (s.state_ = State.MOVING →
        pause s = { s with state_ := State.PAUSED,
                           interrupter_ := { s.interrupter_ with paused := true },
                           trace := s.trace ++ [Event.timerPause] }
        ∧ updates polls (pause s) = pause s
        ∧ resume (updates polls (pause s))
            = { s with interrupter_ := { s.interrupter_ with paused := false },
                       trace := s.trace ++ [Event.timerPause, Event.timerResume] }
        ∧ (s.interrupter_.paused = false →
            { resume (updates polls (pause s)) with trace := s.trace } = s))
    ∧ (s.state_ ≠ State.MOVING → pause s = s)
    ∧ (s.state_ ≠ State.PAUSED → resume s = s)
    ∧ (s.state_ = State.PAUSED →
        resume s = { s with state_ := State.MOVING,
                            interrupter_ := { s.interrupter_ with paused := false },
                            trace := s.trace ++ [Event.timerResume] }) := by
  refine ⟨?_, ?_, ?_, ?_⟩
  · intro h
    have hp : pause s =
        { s with
            state_ := State.PAUSED,
            interrupter_ := { s.interrupter_ with paused := true },
            trace := s.trace ++ [Event.timerPause] } := by
      simp [pause, h, OneShot.pause]
    have hu : updates polls (pause s) = pause s :=
      updates_idle polls _ (by rw [hp]; intro hc; cases hc)
    have hr : resume (updates polls (pause s))
        = { s with interrupter_ := { s.interrupter_ with paused := false },
                   trace := s.trace ++ [Event.timerPause, Event.timerResume] } := by
      rw [hu, hp]
      simp [resume, OneShot.resume, h]
    refine ⟨hp, hu, hr, ?_⟩
    intro hq
    rw [hr]
    cases s with
    | mk a1 a2 a3 a4 a5 a6 a7 a8 a9 a10 a11 a12 a13 a14 a15 a16 a17 a18 =>
      cases a16 with
      | mk b1 b2 =>
        simp only at hq
        subst hq
        rfl
  · intro h
    simp [pause, h]
  · intro h
    simp [resume, h]
  · intro h
    simp [resume, h, OneShot.resume]

/-- Inputs of C11: the motor as constructed after `move(10, false)` (MOVING, the
scheduler armed and unfrozen), the motor before the move (STOPPED), and the
paused motor. -/
theorem pause_resume_roundtrip_witness :
    ∃ s s1, construct Phase.HALF 2048 0 = Except.ok s
      ∧ move (fun _ => true) 0 s 10 false = Except.ok s1
      ∧ s1.state_ = State.MOVING
      ∧ updates [true, false, true] (pause s1) = pause s1
      ∧ { resume (updates [true, false, true] (pause s1)) with trace := s1.trace } = s1
      ∧ pause s = s ∧ resume s = s
      ∧ resume (pause s1)
          = { pause s1 with
                state_ := State.MOVING,
                interrupter_ := { (pause s1).interrupter_ with paused := false },
                trace := (pause s1).trace ++ [Event.timerResume] } := by
  refine ⟨_, _, rfl, rfl, rfl, ?_, ?_, ?_, ?_, ?_⟩
  · exact ((pause_resume_roundtrip _ [true, false, true]).1 rfl).2.1
  · exact ((pause_resume_roundtrip _ [true, false, true]).1 rfl).2.2.2 rfl
  · exact (pause_resume_roundtrip _ []).2.1 (by decide)
  · exact (pause_resume_roundtrip _ []).2.2.1 (by decide)
  · exact (pause_resume_roundtrip _ []).2.2.2 rfl

/-! ## `brake()` -/

/-- C12: from every state, `brake()` yields the same state with the lifecycle
STOPPED, `isInfinite_` false, the scheduler cancelled and all four lines LOW:
`currentStep_` and every other data member are unchanged, and the calls made are
one `cancel` and the four writes of LOW.  `brake()` is idempotent: a second
`brake()` leaves the state as the first one left it, only making its five calls
again. -/
theorem brake_effect_idempotent (s : ULN2003) :
    brake s = { s with state_ := State.STOPPED, isInfinite_ := false,
                       interrupter_ := { armed := none, paused := false },
                       lines := { l0 := false, l1 := false, l2 := false, l3 := false },
                       trace := s.trace ++ [Event.timerCancel, Event.digitalWrite 0 false,
                         Event.digitalWrite 1 false, Event.digitalWrite 2 false,
                         Event.digitalWrite 3 false] }
    ∧ (brake s).lines.allLow
    ∧ brake (brake s) = { brake s with
        trace := (brake s).trace ++ [Event.timerCancel, Event.digitalWrite 0 false,
          Event.digitalWrite 1 false, Event.digitalWrite 2 false,
          Event.digitalWrite 3 false] }
    ∧ { brake (brake s) with trace := [] } = { brake s with trace := [] } := by
  have h : ∀ t : ULN2003,
      brake t =
        { t with
            state_ := State.STOPPED,
            isInfinite_ := false,
            interrupter_ := { armed := none, paused := false },
            lines := { l0 := false, l1 := false, l2 := false, l3 := false },
            trace := t.trace ++ [Event.timerCancel, Event.digitalWrite 0 false,
              Event.digitalWrite 1 false, Event.digitalWrite 2 false,
              Event.digitalWrite 3 false] } := by
    intro t
    simp [brake, digitalWrite, Lines.write, OneShot.cancel]
  refine ⟨h s, (brake_frame s).2.2.2, ?_, ?_⟩
  · rw [h (brake s), h s]
  · rw [h (brake s), h s]

/-! ## The setters and the lifecycle -/

theorem accel_resolution (s : ULN2003) : (accel s).resolution_ = s.resolution_ := by
  obtain ⟨ci, us, h⟩ := accel_shape s
  rw [h]
  rfl

theorem processStep_resolution (s : ULN2003) : (processStep s).resolution_ = s.resolution_ := by
  unfold processStep
  split_ifs <;> rfl

theorem update_resolution (s : ULN2003) (e : Bool) : (update s e).resolution_ = s.resolution_ := by
  unfold update
  dsimp only
  split_ifs
  · rfl
  · rw [accel_resolution, processStep_resolution]
  · rfl

theorem blockWhileMoving_resolution (fuel : Nat) :
    ∀ (clock : Nat → Bool) (s s1 : ULN2003),
      blockWhileMoving clock fuel s = Except.ok s1 → s1.resolution_ = s.resolution_ := by
  induction fuel with
  | zero =>
    intro clock s s1 e
    unfold blockWhileMoving at e
    split_ifs at e
    cases e
    rfl
  | succ f ih =>
    intro clock s s1 e
    unfold blockWhileMoving at e
    split_ifs at e
    · rw [ih _ _ _ e, update_resolution]
    · cases e
      rfl

theorem startTimer_resolution (s s1 : ULN2003) (e : startTimer s = Except.ok s1) :
    s1.resolution_ = s.resolution_ := by
  unfold startTimer at e
  by_cases h0 : s.acceleration_ = 0
  · simp only [h0, if_true] at e
    cases e
    rfl
  · simp only [h0, if_false] at e
    cases hc : calcSpeed { s with intervalAdj_ := adjusted s.interval_ s.delayCorrection_ }
        s.startSpeed_ with
    | error err => simp [hc] at e
    | ok ci =>
      simp only [hc] at e
      cases e
      rw [accel_resolution]

theorem move_resolution (clock : Nat → Bool) (fuel : Nat) (s s1 : ULN2003) (step : Int)
    (blocking : Bool) (e : move clock fuel s step blocking = Except.ok s1) :
    s1.resolution_ = s.resolution_ := by
  unfold move at e
  by_cases hg : s.state_ ≠ State.STOPPED ∨ step = 0 ∨ s.interval_ = 0
  · rw [if_pos hg] at e
    cases e
    rfl
  · rw [if_neg hg] at e
    dsimp only at e
    cases hs : startTimer
        { s with state_ := State.MOVING, toStep_ := toInt32 (s.currentStep_ + step),
                 dir_ := if s.currentStep_ < toInt32 (s.currentStep_ + step) then Dir.CW
                         else Dir.CCW } with
    | error err => simp [hs] at e
    | ok s2 =>
      have h2 := startTimer_resolution _ _ hs
      simp only [hs] at e
      by_cases hb : blocking = true
      · rw [if_pos hb] at e
        rw [blockWhileMoving_resolution fuel clock s2 s1 e, h2]
      · rw [if_neg hb] at e
        cases e
        exact h2

theorem step_resolution (s s1 : ULN2003) (h : Step s s1) : s1.resolution_ = s.resolution_ := by
  cases h with
  | setStartSpeed speed => rfl
  | setRPM _ rpm e =>
    unfold setRPM at e
    split_ifs at e
    · cases e
      rfl
    · cases hc : calcSpeed s rpm with
      | error err => simp [hc] at e
      | ok v =>
        simp only [hc] at e
        cases e
        rfl
  | setInterval interval => unfold setInterval; split_ifs <;> rfl
  | setPhase phase => unfold setPhase; split_ifs <;> rfl
  | setDelayCorrection dc => rfl
  | setAcceleration a => unfold setAcceleration; split_ifs <;> rfl
  | setBlocking b => rfl
  | move _ clock fuel step blocking e => exact move_resolution clock fuel s s1 step blocking e
  | moveDir _ dir e =>
    unfold moveDir at e
    split_ifs at e
    · cases e
      rfl
    · exact startTimer_resolution
        { s with state_ := State.MOVING, isInfinite_ := true, dir_ := dir } s1 e
  | stop _ e =>
    unfold stop at e
    by_cases hst : s.state_ = State.STOPPED
    · rw [if_pos hst] at e
      cases e
      rfl
    · rw [if_neg hst] at e
      cases hc : calcSpeed { s with decreaseStep_ := toUInt32 s.currentStep_ } s.startSpeed_ with
      | error err => simp [hc] at e
      | ok v =>
        simp only [hc] at e
        by_cases h0 : s.acceleration_ = 0
        · simp [h0] at e
        · rw [if_neg h0] at e
          cases e
          rfl
  | pause => unfold pause; split_ifs <;> rfl
  | resume => unfold resume; split_ifs <;> rfl
  | brake => rfl
  | update elapsed => exact update_resolution s elapsed

/-- C13: in every state whose lifecycle is MOVING or PAUSED, and for every
argument, `setRPM`, `setInterval`, `setPhase` and `setAcceleration` return the
motor as it was (interval, phase, acceleration and every other member keep
their values); and no call of a public member function changes `resolution_`. -/
theorem configuration_setters_gated (s : ULN2003) (rpm interval a : Nat) (phase : Phase) :
    (s.state_ = State.MOVING ∨ s.state_ = State.PAUSED →
        setRPM s rpm = Except.ok s ∧ setInterval s interval = s ∧ setPhase s phase = s
          ∧ setAcceleration s a = s)
    ∧ (∀ s1, Step s s1 → s1.resolution_ = s.resolution_) := by
  refine ⟨?_, fun s1 h => step_resolution s s1 h⟩
  intro h
  have hne : s.state_ ≠ State.STOPPED := by
    rcases h with h | h <;> rw [h] <;> decide
  simp [setRPM, setInterval, setPhase, setAcceleration, hne]

/-- Inputs of C13: the motor as constructed after `move(10, false)` (MOVING) and
the same motor paused; the four setters leave both as they are. -/
theorem configuration_setters_gated_witness :
    ∃ s s1, construct Phase.HALF 2048 0 = Except.ok s
      ∧ move (fun _ => true) 0 s 10 false = Except.ok s1
      ∧ (setRPM s1 20 = Except.ok s1 ∧ setInterval s1 500 = s1 ∧ setPhase s1 Phase.ONE = s1
          ∧ setAcceleration s1 7 = s1)
      ∧ (setRPM (pause s1) 20 = Except.ok (pause s1) ∧ setInterval (pause s1) 500 = pause s1
          ∧ setPhase (pause s1) Phase.ONE = pause s1 ∧ setAcceleration (pause s1) 7 = pause s1)
      ∧ (brake s1).resolution_ = s1.resolution_ := by
  refine ⟨_, _, rfl, rfl, ?_, ?_, ?_⟩
  · exact (configuration_setters_gated _ 20 500 7 Phase.ONE).1 (Or.inl rfl)
  · exact (configuration_setters_gated _ 20 500 7 Phase.ONE).1 (Or.inr rfl)
  · exact (configuration_setters_gated _ 20 500 7 Phase.ONE).2 _ (Step.brake _)

/-- C14 (code at the failing input): on the motor as constructed, MOVING after
`move(10, false)`, `setStartSpeed(20)` is not rejected and changes `startSpeed_`
from 10 to 20, and `setDelayCorrection(100)` is not rejected and changes
`delayCorrection_` from 0 to 100 and `intervalAdj_` from 2929 to 2829; the same
on the paused motor. -/
theorem unguarded_setters_write_while_moving :
    ∃ s s1, construct Phase.HALF 2048 0 = Except.ok s
      ∧ move (fun _ => true) 0 s 10 false = Except.ok s1
      ∧ s1.state_ = State.MOVING ∧ (pause s1).state_ = State.PAUSED
      ∧ s1.startSpeed_ = 10 ∧ (setStartSpeed s1 20).startSpeed_ = 20
      ∧ s1.delayCorrection_ = 0 ∧ (setDelayCorrection s1 100).delayCorrection_ = 100
      ∧ s1.intervalAdj_ = 2929 ∧ (setDelayCorrection s1 100).intervalAdj_ = 2829
      ∧ setStartSpeed s1 20 ≠ s1 ∧ setDelayCorrection s1 100 ≠ s1
      ∧ setStartSpeed (pause s1) 20 ≠ pause s1
      ∧ setDelayCorrection (pause s1) 100 ≠ pause s1 := by
  refine ⟨_, _, rfl, rfl, rfl, rfl, rfl, rfl, rfl, rfl, rfl, rfl, ?_, ?_, ?_, ?_⟩ <;> decide

/-- The bodies of `setStartSpeed` and `setDelayCorrection` have no test of
`state_`: what they assign, whatever the lifecycle. -/
theorem unguarded_setters_effect (s : ULN2003) (v d : Nat) :
    setStartSpeed s v = { s with startSpeed_ := v % 256 }
    ∧ setDelayCorrection s d =
        { s with
            delayCorrection_ := d % 4294967296,
            intervalAdj_ :=
              if s.interval_ > d % 4294967296 then s.interval_ - d % 4294967296 else 1 } :=
  ⟨rfl, rfl⟩

/-! ## The ramp -/

theorem checkInterval_currentInterval (s : ULN2003) :
    (checkInterval s).currentInterval_ =
      (if s.currentInterval_ > s.intervalAdj_ then
        (if toUInt32 ((s.currentInterval_ : Int) - (s.acceleration_ : Int)) < s.intervalAdj_
          then s.intervalAdj_
          else toUInt32 ((s.currentInterval_ : Int) - (s.acceleration_ : Int)))
      else (if s.currentInterval_ < s.intervalAdj_ then s.intervalAdj_ else s.currentInterval_)) := by
  unfold checkInterval
  by_cases h1 : s.currentInterval_ > s.intervalAdj_
  · by_cases h2 : toUInt32 ((s.currentInterval_ : Int) - (s.acceleration_ : Int)) < s.intervalAdj_
    · simp [h1, h2]
    · simp [h1, h2]
  · by_cases h2 : s.currentInterval_ < s.intervalAdj_
    · simp [h1, h2]
    · simp [h1, h2]

/-- The clamp of `checkInterval` holds in every state: the result is never below
`intervalAdj_`. -/
theorem checkInterval_ge (s : ULN2003) : s.intervalAdj_ ≤ (checkInterval s).currentInterval_ := by
  rw [checkInterval_currentInterval]
  split_ifs <;> omega

/-- Without unsigned wrap-around (`acceleration_ ≤ currentInterval_`),
`checkInterval` yields `max (currentInterval_ - acceleration_) intervalAdj_` for an
interval above `intervalAdj_`. -/
theorem checkInterval_of_no_wrap (s : ULN2003) (hr : s.currentInterval_ < 4294967296)
    (h1 : s.intervalAdj_ < s.currentInterval_) (h2 : s.acceleration_ ≤ s.currentInterval_) :
    (checkInterval s).currentInterval_
      = max (s.currentInterval_ - s.acceleration_) s.intervalAdj_ := by
  rw [checkInterval_currentInterval]
  have hu : toUInt32 ((s.currentInterval_ : Int) - (s.acceleration_ : Int))
      = s.currentInterval_ - s.acceleration_ := by
    unfold toUInt32
    omega
  rw [hu, if_pos h1]
  split_ifs with h3
  · exact (Nat.max_eq_right (Nat.le_of_lt h3)).symm
  · exact (Nat.max_eq_left (Nat.le_of_not_lt h3)).symm

/-- At or below `intervalAdj_`, `checkInterval` yields `intervalAdj_`. -/
theorem checkInterval_at_floor (s : ULN2003) (h : s.currentInterval_ ≤ s.intervalAdj_) :
    (checkInterval s).currentInterval_ = s.intervalAdj_ := by
  rw [checkInterval_currentInterval]
  split_ifs <;> omega

/-- C15 (code at the failing input): the motor as constructed, with `setRPM(30)`
(so `intervalAdj_` becomes 976) and acceleration 3000: `move(100, false)` starts the
ramp at `calcSpeed(startSpeed_) = 2929` and runs `checkInterval()` once; 2929 is
above 976, so 3000 is subtracted in `uint32_t` and the interval wraps to
4294967225, which the clamp (a test for "below `intervalAdj_`") lets through:
the interval has grown, and the scheduler is armed with 2147483612. -/
theorem checkInterval_wraps_below_zero :
    ∃ s s1 s2, construct Phase.HALF 2048 0 = Except.ok s
      ∧ setRPM s 30 = Except.ok s1
      ∧ move (fun _ => true) 0 (setAcceleration s1 3000) 100 false = Except.ok s2
      ∧ s2.acceleration_ = 3000 ∧ s2.intervalAdj_ = 976
      ∧ calcSpeed s2 s2.startSpeed_ = Except.ok 2929
      ∧ (checkInterval { s2 with currentInterval_ := 2929 }).currentInterval_ = 4294967225
      ∧ s2.currentInterval_ = 4294967225
      ∧ armings s2.trace = [2147483612] :=
  ⟨_, _, _, rfl, rfl, rfl, rfl, rfl, rfl, rfl, rfl, rfl⟩

theorem accel_ramped (s : ULN2003) (h : s.acceleration_ ≠ 0) :
    accel s =
      timerStart
        { s with currentInterval_ :=
            if addsAcceleration s then (s.currentInterval_ + s.acceleration_) % 4294967296
            else (checkInterval s).currentInterval_ }
        (if s.phase_ = Phase.HALF then
          (if addsAcceleration s then (s.currentInterval_ + s.acceleration_) % 4294967296
            else (checkInterval s).currentInterval_) / 2
         else
          (if addsAcceleration s then (s.currentInterval_ + s.acceleration_) % 4294967296
            else (checkInterval s).currentInterval_)) := by
  obtain ⟨ci, hci⟩ := checkInterval_shape s
  unfold accel
  rw [if_pos h]
  by_cases hd : s.dir_ = Dir.CW
  · by_cases hx : toUInt32 s.currentStep_ ≥ s.decreaseStep_
    · have hfar : addsAcceleration s := Or.inl ⟨hd, hx⟩
      simp only [if_pos hd, if_pos hx, if_pos hfar]
    · have hfar : ¬ addsAcceleration s := by
        rintro (⟨_, h2⟩ | ⟨h1, _⟩)
        · exact hx h2
        · rw [hd] at h1; cases h1
      simp only [if_pos hd, if_neg hx, if_neg hfar]
      rw [hci]
  · have hccw : s.dir_ = Dir.CCW := by
      cases hdir : s.dir_ with
      | CW => exact absurd hdir hd
      | CCW => rfl
    by_cases hx : toUInt32 s.currentStep_ < s.decreaseStep_
    · have hfar : addsAcceleration s := Or.inr ⟨hccw, hx⟩
      simp only [if_neg hd, if_pos hx, if_pos hfar]
    · have hfar : ¬ addsAcceleration s := by
        rintro (⟨h1, _⟩ | ⟨_, h2⟩)
        · exact hd h1
        · exact hx h2
      simp only [if_neg hd, if_neg hx, if_neg hfar]
      rw [hci]

theorem processStep_ramp_frame (s : ULN2003) :
    (processStep s).currentInterval_ = s.currentInterval_
      ∧ (processStep s).acceleration_ = s.acceleration_
      ∧ (processStep s).intervalAdj_ = s.intervalAdj_
      ∧ (processStep s).decreaseStep_ = s.decreaseStep_
      ∧ (processStep s).phase_ = s.phase_ := by
  have hb : (brake s).currentInterval_ = s.currentInterval_
      ∧ (brake s).acceleration_ = s.acceleration_
      ∧ (brake s).intervalAdj_ = s.intervalAdj_
      ∧ (brake s).decreaseStep_ = s.decreaseStep_
      ∧ (brake s).phase_ = s.phase_ := by
    simp [brake, digitalWrite]
  have hadv : (advance s).currentInterval_ = s.currentInterval_
      ∧ (advance s).acceleration_ = s.acceleration_
      ∧ (advance s).intervalAdj_ = s.intervalAdj_
      ∧ (advance s).decreaseStep_ = s.decreaseStep_
      ∧ (advance s).phase_ = s.phase_ := by
    simp [advance, excitation, digitalWrite]
  unfold processStep
  by_cases h1 : s.isInfinite_ = false
  · rw [if_pos h1]
    by_cases h2 : s.dir_ = Dir.CW
    · rw [if_pos h2]
      by_cases h3 : s.currentStep_ ≥ s.toStep_
      · rw [if_pos h3]; exact hb
      · rw [if_neg h3]; exact hadv
    · rw [if_neg h2]
      by_cases h3 : s.currentStep_ ≤ s.toStep_
      · rw [if_pos h3]; exact hb
      · rw [if_neg h3]; exact hadv
  · rw [if_neg h1]; exact hadv

theorem accel_ramp (p : ULN2003) (h : p.acceleration_ ≠ 0) :
    (addsAcceleration (accel p) ↔ addsAcceleration p)
      ∧ (accel p).decreaseStep_ = p.decreaseStep_
      ∧ (accel p).currentInterval_ =
          (if addsAcceleration p then (p.currentInterval_ + p.acceleration_) % 4294967296
           else (checkInterval p).currentInterval_)
      ∧ (accel p).interrupter_.armed =
          some (if p.phase_ = Phase.HALF then (accel p).currentInterval_ / 2
                else (accel p).currentInterval_) := by
  rw [accel_ramped p h]
  exact ⟨Iff.rfl, rfl, rfl, rfl⟩

/-- One elapsed tick with `acceleration_ != 0`, as the code runs it: the interval
afterwards in terms of the test `accel()` makes on the counter the tick leaves. -/
theorem accel_tick (s : ULN2003) (hst : s.state_ = State.MOVING) (ha : Armed s)
    (hacc : s.acceleration_ ≠ 0) :
    (update s true).decreaseStep_ = s.decreaseStep_
    ∧ (addsAcceleration (update s true) →
        (update s true).currentInterval_
          = (s.currentInterval_ + s.acceleration_) % 4294967296)
    ∧ (¬ addsAcceleration (update s true) →
        s.intervalAdj_ ≤ (update s true).currentInterval_
        ∧ (s.currentInterval_ < 4294967296 → s.intervalAdj_ < s.currentInterval_ →
            s.acceleration_ ≤ s.currentInterval_ →
            (update s true).currentInterval_
              = max (s.currentInterval_ - s.acceleration_) s.intervalAdj_)
        ∧ (s.currentInterval_ ≤ s.intervalAdj_ →
            (update s true).currentInterval_ = s.intervalAdj_))
    ∧ (update s true).interrupter_.armed =
        some (if s.phase_ = Phase.HALF then (update s true).currentInterval_ / 2
              else (update s true).currentInterval_) := by
  rw [update_fire s hst ha]
  obtain ⟨f1, f2, f3, f4, f5⟩ :=
    processStep_ramp_frame { s with interrupter_ := { s.interrupter_ with armed := none } }
  generalize processStep { s with interrupter_ := { s.interrupter_ with armed := none } } = p
    at f1 f2 f3 f4 f5 ⊢
  simp only at f1 f2 f3 f4 f5
  have hp : p.acceleration_ ≠ 0 := by rw [f2]; exact hacc
  obtain ⟨a1, a2, a3, a4⟩ := accel_ramp p hp
  have hge := checkInterval_ge p
  refine ⟨by rw [a2, f4], ?_, ?_, by rw [a4, f5]⟩
  · intro hpast
    rw [a3, if_pos (a1.mp hpast), f1, f2]
  · intro hpast
    have hn : ¬ addsAcceleration p := fun hc => hpast (a1.mpr hc)
    rw [a3, if_neg hn]
    refine ⟨by rw [← f3]; exact hge, ?_, ?_⟩
    · intro h1 h2 h3
      rw [← f1] at h1 h2 h3
      rw [← f3] at h2
      rw [← f2] at h3
      rw [checkInterval_of_no_wrap p h1 h2 h3, f1, f2, f3]
    · intro h1
      rw [← f1, ← f3] at h1
      rw [checkInterval_at_floor p h1, f3]

theorem brake_dir (s : ULN2003) : (brake s).dir_ = s.dir_ := by
  simp [brake, digitalWrite]

theorem processStep_counter_clockwise (p : ULN2003) (hd : p.dir_ = Dir.CW)
    (h0 : 0 ≤ p.currentStep_) (h1 : p.currentStep_ < 2147483647) :
    (processStep p).dir_ = Dir.CW ∧ 0 ≤ (processStep p).currentStep_
      ∧ (processStep p).currentStep_ < 2147483648 := by
  have hbr : (brake p).dir_ = Dir.CW ∧ 0 ≤ (brake p).currentStep_
      ∧ (brake p).currentStep_ < 2147483648 := by
    rw [brake_dir, (brake_frame p).2.2.1]
    exact ⟨hd, h0, by omega⟩
  have hadv : (advance p).dir_ = Dir.CW ∧ 0 ≤ (advance p).currentStep_
      ∧ (advance p).currentStep_ < 2147483648 := by
    obtain ⟨_, _, _, a4, a5⟩ := advance_frame p
    rw [a4, a5, if_pos hd, toInt32_of_range _ (by omega) (by omega)]
    exact ⟨hd, by omega, by omega⟩
  unfold processStep
  by_cases c1 : p.isInfinite_ = false
  · rw [if_pos c1, if_pos hd]
    by_cases c3 : p.currentStep_ ≥ p.toStep_
    · rw [if_pos c3]; exact hbr
    · rw [if_neg c3]; exact hadv
  · rw [if_neg c1]; exact hadv

theorem update_counter_clockwise (s : ULN2003) (hst : s.state_ = State.MOVING) (ha : Armed s)
    (hd : s.dir_ = Dir.CW) (h0 : 0 ≤ s.currentStep_) (h1 : s.currentStep_ < 2147483647) :
    (update s true).dir_ = Dir.CW ∧ 0 ≤ (update s true).currentStep_
      ∧ (update s true).currentStep_ < 2147483648 := by
  rw [update_fire s hst ha]
  obtain ⟨⟨_, _, _, f4, f5, _⟩, _⟩ :=
    accel_frame (processStep { s with interrupter_ := { s.interrupter_ with armed := none } })
  rw [f4, f5]
  exact processStep_counter_clockwise
    { s with interrupter_ := { s.interrupter_ with armed := none } } hd h0 h1

/-- The CCW direction, evaluated: the motor as constructed, with `setRPM(15)` and
acceleration 10, after `move(-3, false)` has `decreaseStep_ = 149`.  With the
counter at 0 the start of the move adds `acceleration_` (2929 to 2939); the first
tick takes the counter to -1 and subtracts it (2939 to 2929): the counter is
below 149 both times, and `accel()` compares it as `uint32_t`. -/
theorem ramp_counter_clockwise_ticks :
    ∃ s s1 s2, construct Phase.HALF 2048 0 = Except.ok s
      ∧ setRPM s 15 = Except.ok s1
      ∧ move (fun _ => true) 0 (setAcceleration s1 10) (-3) false = Except.ok s2
      ∧ s2.dir_ = Dir.CCW ∧ s2.decreaseStep_ = 149
      ∧ calcSpeed s2 s2.startSpeed_ = Except.ok 2929
      ∧ s2.currentStep_ = 0 ∧ s2.currentInterval_ = 2939
      ∧ (update s2 true).currentStep_ = -1
      ∧ (update s2 true).currentInterval_ = 2929 :=
  ⟨_, _, _, rfl, rfl, rfl, rfl, rfl, rfl, rfl, rfl, rfl, rfl⟩

/-! ## The lifecycle and the scheduler -/

/-- C17 (code at the failing input): the motor as constructed, after the
blocking `move(1, true)` with the scheduler elapsing at every poll.  The state is
reachable, the lifecycle is STOPPED and the four lines are LOW, but the scheduler
is armed with 2929: in the tick that detects the arrival `processStep()` brakes
(cancelling the scheduler) and `update()` then calls `accel()`, which arms it
again; the last call made is that `start`. -/
theorem arrival_tick_rearms_scheduler :
    ∃ s s1, construct Phase.HALF 2048 0 = Except.ok s
      ∧ move (fun _ => true) 2 s 1 true = Except.ok s1
      ∧ Reachable s1
      ∧ s1.state_ = State.STOPPED ∧ s1.lines.allLow
      ∧ s1.interrupter_ = { armed := some 2929, paused := false }
      ∧ s1.trace.drop 6 =
          [Event.timerCancel, Event.digitalWrite 0 false, Event.digitalWrite 1 false,
           Event.digitalWrite 2 false, Event.digitalWrite 3 false, Event.timerStart 2929] :=
  ⟨_, _, rfl, rfl,
    Reachable.move _ _ (fun _ => true) 2 1 true (Reachable.construct Phase.HALF 2048 0 _ rfl) rfl,
    rfl, ⟨rfl, rfl, rfl, rfl⟩, rfl, rfl⟩

/-- C18 (code at the failing input): on the motor as constructed,
`setStartSpeed(0)` is accepted, so a reachable state has `startSpeed_ = 0`; with
acceleration 10, `move(10, false)` then divides by zero in
`calcSpeed(startSpeed_)`.  Likewise `setStartSpeed(0)` during a ramped move makes
`stop()` divide by zero. -/
theorem start_speed_zero_reachable :
    ∃ s s1, construct Phase.HALF 2048 0 = Except.ok s
      ∧ Reachable (setAcceleration (setStartSpeed s 0) 10)
      ∧ (setAcceleration (setStartSpeed s 0) 10).startSpeed_ = 0
      ∧ (setAcceleration (setStartSpeed s 0) 10).acceleration_ = 10
      ∧ move (fun _ => true) 0 (setAcceleration (setStartSpeed s 0) 10) 10 false
          = Except.error Fault.divisionByZero
      ∧ move (fun _ => true) 0 (setAcceleration s 10) 10 false = Except.ok s1
      ∧ Reachable (setStartSpeed s1 0)
      ∧ stop (setStartSpeed s1 0) = Except.error Fault.divisionByZero :=
  ⟨_, _, rfl,
    Reachable.setAcceleration _ 10
      (Reachable.setStartSpeed _ 0 (Reachable.construct Phase.HALF 2048 0 _ rfl)),
    rfl, rfl, rfl, rfl,
    Reachable.setStartSpeed _ 0
      (Reachable.move _ _ (fun _ => true) 0 10 false
        (Reachable.setAcceleration _ 10 (Reachable.construct Phase.HALF 2048 0 _ rfl)) rfl),
    rfl⟩

/-! ## The toggles -/

theorem toggleMoveStopByRev_moving (clock : Nat → Bool) (fuel : Nat) (s : ULN2003) (rev : Int)
    (h : s.state_ = State.MOVING) :
    toggleMoveStopByRev1 clock fuel s rev = toggleMoveStopByRev clock fuel s rev s.isBlocking_ := by
  simp [toggleMoveStopByRev1, toggleMoveStop, toggleMoveStopByRev, h]

/-- C19 (code at the failing input): on the motor as constructed (STOPPED, HALF
phase, resolution 2048), the one-argument `toggleMoveStopByRev(1)`, whose body
calls `toggleMoveStop`, starts a move of 1 step (`toStep_ = 1`), where the
two-argument `toggleMoveStopByRev(1, isBlocking_)` starts a move of one
revolution (`toStep_ = 1 * 2048 * 2 = 4096`); both return true. -/
theorem toggleMoveStopByRev_overloads_differ :
    ∃ s a b, construct Phase.HALF 2048 0 = Except.ok s
      ∧ toggleMoveStopByRev1 (fun _ => true) 0 s 1 = Except.ok (true, a)
      ∧ toggleMoveStopByRev (fun _ => true) 0 s 1 s.isBlocking_ = Except.ok (true, b)
      ∧ a.toStep_ = 1 ∧ b.toStep_ = 4096 ∧ a ≠ b := by
  refine ⟨_, _, _, rfl, rfl, rfl, rfl, rfl, ?_⟩
  decide

/-! ## The ramp in the two directions -/

/-- C20 (code at the failing input): the motor as constructed (currentStep 0),
with `setRPM(15)` and acceleration 10.  The blocking `move(3)` arms the scheduler
with 1459, 1454, 1449, 1444, 1439; the blocking `move(-3)` with 1469, 1464, 1459,
1454, 1449: at the start of the CCW move the counter 0 is below `decreaseStep_`
(149, a `uint32_t`), which `accel()` takes for the far side of the threshold, and
the interval is increased where the CW move decreases it.  With the interval of
the constructor the sequences are 1464, 1464, ... and 1469, 1464, .... -/
theorem ramp_not_symmetric :
    ∃ s s1 a b c d, construct Phase.HALF 2048 0 = Except.ok s
      ∧ setRPM s 15 = Except.ok s1
      ∧ move (fun _ => true) 4 (setAcceleration s1 10) 3 true = Except.ok a
      ∧ move (fun _ => true) 4 (setAcceleration s1 10) (-3) true = Except.ok b
      ∧ a.state_ = State.STOPPED ∧ b.state_ = State.STOPPED
      ∧ a.currentStep_ = 3 ∧ b.currentStep_ = -3
      ∧ armings a.trace = [1459, 1454, 1449, 1444, 1439]
      ∧ armings b.trace = [1469, 1464, 1459, 1454, 1449]
      ∧ move (fun _ => true) 4 (setAcceleration s 10) 3 true = Except.ok c
      ∧ move (fun _ => true) 4 (setAcceleration s 10) (-3) true = Except.ok d
      ∧ armings c.trace = [1464, 1464, 1464, 1464, 1464]
      ∧ armings d.trace = [1469, 1464, 1464, 1464, 1464] :=
  ⟨_, _, _, _, _, _, rfl, rfl, rfl, rfl, rfl, rfl, rfl, rfl, rfl, rfl, rfl, rfl, rfl, rfl⟩

/-- With acceleration 0 the two directions arm the scheduler alike: at the start
of any move and after any tick the interval armed does not depend on the
direction or on the counter. -/
theorem unramped_arming_symmetric (s : ULN2003) (h : s.acceleration_ = 0) :
    accel s = timerStart s s.intervalAdj_
    ∧ startTimer s =
        Except.ok (timerStart { s with intervalAdj_ := adjusted s.interval_ s.delayCorrection_ }
          (if s.phase_ = Phase.HALF then adjusted s.interval_ s.delayCorrection_ / 2
           else adjusted s.interval_ s.delayCorrection_)) := by
  refine ⟨accel_zero_acceleration s h, ?_⟩
  unfold startTimer
  exact if_pos h

/-! ## Reachability is closed under the calls -/

theorem reachable_step (s s1 : ULN2003) (h : Reachable s) (st : Step s s1) : Reachable s1 := by
  cases st with
  | setStartSpeed speed => exact Reachable.setStartSpeed s speed h
  | setRPM _ rpm e => exact Reachable.setRPM s s1 rpm h e
  | setInterval interval => exact Reachable.setInterval s interval h
  | setPhase phase => exact Reachable.setPhase s phase h
  | setDelayCorrection dc => exact Reachable.setDelayCorrection s dc h
  | setAcceleration a => exact Reachable.setAcceleration s a h
  | setBlocking b => exact Reachable.setBlocking s b h
  | move _ clock fuel step blocking e => exact Reachable.move s s1 clock fuel step blocking h e
  | moveDir _ dir e => exact Reachable.moveDir s s1 dir h e
  | stop _ e => exact Reachable.stop s s1 h e
  | pause => exact Reachable.pause s h
  | resume => exact Reachable.resume s h
  | brake => exact Reachable.brake s h
  | update elapsed => exact Reachable.update s elapsed h

end ULN2003
